import Mathlib

/-!
Verification development for the f1-metrics repository.

The definitions below are a shallow embedding of the Python source:
  - backend/config.py           (MIN_YEAR, CACHE_TTL, ENABLE_CACHE)
  - backend/data/loader.py      (F1DataLoader view-building operations)
  - backend/data/cache.py       (MetricCache: _generate_key, get, set)
  - backend/metrics/driver/race.py   (AverageFinishPosition, DNFRate)
  - backend/api/routes/metrics.py    (bulk calculate, constructor endpoint)

pandas DataFrames are modelled as Lists of typed rows; CSV cells that may
hold non-numeric sentinels are modelled by the `Cell` type.  DataFrame
merges on a key column whose values are unique in the right table (the id
columns raceId / driverId / constructorId, which are primary keys of their
CSV files) are modelled with `List.find?`.  Process-level memoisation
(`_data_cache`, `_joined_cache`) returns copies of pure values and is
therefore dropped from the embedding.
-/

namespace F1Metrics

/-- MIN_YEAR from backend/config.py: complete data availability from 2011. -/
def MIN_YEAR : Int := 2011

/-- CACHE_TTL from backend/config.py (seconds). -/
def CACHE_TTL : Int := 3600

/-- A raw CSV cell that may hold an integer, a non-numeric sentinel string
(such as "Ret" or the Ergast null marker), or a missing value. -/
inductive Cell where
  | null
  | int (n : Int)
  | str (s : String)
deriving DecidableEq

/-- Value of a list of decimal digit characters, or none when the list is
empty or holds a non-digit. -/
def digitsToNat? (cs : List Char) : Option Nat :=
  match cs with
  | [] => none
  | _ =>
    cs.foldl (fun acc c =>
      match acc with
      | none => none
      | some n => if c.isDigit then some (n * 10 + (c.toNat - 48)) else none)
      (some 0)

/-- Integer value of a string, or none when the string is not an optionally
signed run of decimal digits.  Executable stand-in for the numeric parsing
done by pd.to_numeric on the integral position / points columns. -/
def strToInt? (s : String) : Option Int :=
  match s.data with
  | [] => none
  | '-' :: rest => (digitsToNat? rest).map (fun n => -(n : Int))
  | cs => (digitsToNat? cs).map (fun n => (n : Int))

/-- pd.to_numeric(col, errors="coerce") on a cell: numeric content is kept,
anything non-numeric becomes a null marker, and no failure is ever raised
(the function is total). -/
def Cell.toNum : Cell → Option Int
  | .null => none
  | .int n => some n
  | .str s => strToInt? s

/-- Row of races.csv (columns used by the embedded operations). -/
structure RaceRow where
  raceId : Int
  year : Int
  round : Int
deriving DecidableEq

/-- Row of results.csv (columns used by the embedded operations). -/
structure ResultRow where
  resultId : Int
  raceId : Int
  driverId : Int
  constructorId : Int
  position : Cell
  positionText : String
  positionOrder : Option Int
  points : Cell
  statusId : Int
deriving DecidableEq

/-- Row of drivers.csv (columns used by the embedded operations). -/
structure DriverRow where
  driverId : Int
  forename : String
  surname : String
deriving DecidableEq

/-- Row of constructors.csv (columns used by the embedded operations). -/
structure ConstructorRow where
  constructorId : Int
  name : String
deriving DecidableEq

/-- Row of constructor_standings.csv (columns used by the embedded
operations). -/
structure StandingRow where
  constructorStandingsId : Int
  raceId : Int
  constructorId : Int
  points : Int
  position : Int
  wins : Int
deriving DecidableEq

/-- Python truthiness of an optional integer parameter: None and 0 are
falsy.  This is the guard used by `if season:` / `if driver_id:` /
`if constructor_id:` / `if not request.constructor_id:` in the source. -/
def truthyInt : Option Int → Bool
  | none => false
  | some n => n != 0

/-- Python truthiness of an optional list parameter: None and the empty
list are falsy.  This is the guard in `race_ids or races["raceId"].tolist()`. -/
def orElseIds (race_ids : Option (List Int)) (fallback : List Int) : List Int :=
  match race_ids with
  | none => fallback
  | some l => if l.isEmpty then fallback else l

/-- Stable insertion of one element into a list with respect to a boolean
comparison.  Used to model DataFrame.sort_values. -/
def insertStable (le : α → α → Bool) (x : α) : List α → List α
  | [] => [x]
  | y :: ys => if le y x then y :: insertStable le x ys else x :: y :: ys

/-- Sort of a list with respect to a boolean comparison, modelling
DataFrame.sort_values (tie order is not relied upon by any claim). -/
def sortBy (le : α → α → Bool) (l : List α) : List α :=
  l.foldr (insertStable le) []

/-- Comparison used by races.sort_values(["year", "round"]). -/
def raceLe (r1 r2 : RaceRow) : Bool :=
  r1.year < r2.year || (r1.year == r2.year && r1.round ≤ r2.round)

/-- F1DataLoader.get_races (loader.py lines 41-51): filter by minimum year,
optionally filter by season (Python truthiness), sort by (year, round). -/
def get_races (races : List RaceRow) (season : Option Int) : List RaceRow :=
  let r1 := races.filter (fun r => MIN_YEAR ≤ r.year)
  let r2 := if truthyInt season then r1.filter (fun r => r.year == season.getD 0) else r1
  sortBy raceLe r2

/-- F1DataLoader.get_results (loader.py lines 53-60): optional filter by an
explicit race-id list (checked with `is not None`, so an empty list filters
everything out). -/
def get_results (results : List ResultRow) (race_ids : Option (List Int)) : List ResultRow :=
  match race_ids with
  | none => results
  | some ids => results.filter (fun r => ids.contains r.raceId)

/-- Row of the view returned by get_driver_results_with_names: a results
row left-merged with races and drivers. -/
structure DriverResultRow where
  result : ResultRow
  race : Option RaceRow
  driver : Option DriverRow
  driver_name : Option String
deriving DecidableEq

/-- F1DataLoader.get_driver_results_with_names (loader.py lines 97-130):
resolve the season to a race-id list, let an explicit race_ids argument
replace that list when truthy (`race_ids or races["raceId"].tolist()`),
filter results by those ids and optionally by driver, then left-merge with
the season-filtered races and with drivers. -/
def get_driver_results_with_names (races : List RaceRow) (results : List ResultRow)
    (drivers : List DriverRow) (driver_id : Option Int) (season : Option Int)
    (race_ids : Option (List Int)) : List DriverResultRow :=
  let rs := get_races races season
  let ids := orElseIds race_ids (rs.map (fun r => r.raceId))
  let res0 := get_results results (some ids)
  let res1 := if truthyInt driver_id
              then res0.filter (fun r => r.driverId == driver_id.getD 0)
              else res0
  res1.map (fun r =>
    let q := rs.find? (fun q => q.raceId == r.raceId)
    let d := drivers.find? (fun d => d.driverId == r.driverId)
    { result := r, race := q, driver := d,
      driver_name := d.map (fun d => d.forename ++ " " ++ d.surname) })

/-- Shared result-selection prologue of the driver race metrics
(race.py lines 46-54, identical in AverageFinishPosition, PointsPerRace,
DNFRate and PodiumRate): season-resolved race ids, replaced by an explicit
race_ids list when truthy, then truthy driver and constructor filters. -/
def metricSelectResults (races : List RaceRow) (results : List ResultRow)
    (driver_id constructor_id season : Option Int)
    (race_ids : Option (List Int)) : List ResultRow :=
  let rs := get_races races season
  let ids := orElseIds race_ids (rs.map (fun r => r.raceId))
  let res0 := get_results results (some ids)
  let res1 := if truthyInt driver_id
              then res0.filter (fun r => r.driverId == driver_id.getD 0)
              else res0
  if truthyInt constructor_id
  then res1.filter (fun r => r.constructorId == constructor_id.getD 0)
  else res1

/-- Result of AverageFinishPosition.calculate (race.py lines 26-99),
cache-miss computation path.  The float rounding round(x, 2) of the final
value is abstracted to the exact rational mean; no claim depends on it.
noData models the "No race results found" MetricResult. -/
inductive AvgFinishResult where
  | noData
  | ok (value : Option ℚ) (total_races finished_races dnf_count : Nat)
      (best_finish worst_finish : Option Int)
deriving DecidableEq

/-- Result of DNFRate.calculate (race.py lines 200-271), cache-miss
computation path, with the same rounding abstraction. -/
inductive DNFRateResult where
  | noData
  | ok (value : ℚ) (total_races dnf_count : Nat) (finish_rate : ℚ)
deriving DecidableEq

/-- Python regex search for r'^[^\d]' with na=False: the string has a
first character and it is not a decimal digit. -/
def startsNonDigit (s : String) : Bool :=
  match s.data with
  | [] => false
  | c :: _ => !c.isDigit

/-- AverageFinishPosition.calculate: select results, then average the
positionOrder of the rows whose positionOrder is present and positive
("only classified finishes" per the code comment); total_races counts all
selected rows and dnf_count is their difference. -/
def AverageFinishPosition_calculate (races : List RaceRow) (results : List ResultRow)
    (driver_id constructor_id season : Option Int)
    (race_ids : Option (List Int)) : AvgFinishResult :=
  let res := metricSelectResults races results driver_id constructor_id season race_ids
  if res.isEmpty then .noData
  else
    let finished := res.filter
      (fun r => r.positionOrder.isSome && decide (0 < r.positionOrder.getD 0))
    let value : Option ℚ :=
      if finished.isEmpty then none
      else some ((finished.map (fun r => ((r.positionOrder.getD 0 : ℚ)))).sum / finished.length)
    .ok value res.length finished.length (res.length - finished.length)
      (if finished.isEmpty then none else (finished.filterMap (fun r => r.positionOrder)).min?)
      (if finished.isEmpty then none else (finished.filterMap (fun r => r.positionOrder)).max?)

/-- DNFRate.calculate: select results, then count the rows whose
positionText starts with a non-digit (the code comment reads: DNF is when
positionText is not a number, like "Ret", "DNF", etc.). -/
def DNFRate_calculate (races : List RaceRow) (results : List ResultRow)
    (driver_id constructor_id season : Option Int)
    (race_ids : Option (List Int)) : DNFRateResult :=
  let res := metricSelectResults races results driver_id constructor_id season race_ids
  if res.isEmpty then .noData
  else
    let dnfs := res.filter (fun r => startsNonDigit r.positionText)
    let rate : ℚ := 100 * dnfs.length / res.length
    .ok rate res.length dnfs.length (100 - rate)

/-- Replace the raw position cell of a results row, leaving every other
column unchanged.  Used to state that the driver race metrics never read
the position column. -/
def ResultRow.withPosition (r : ResultRow) (c : Cell) : ResultRow :=
  { r with position := c }

/-- Count fields (total_races, finished_races, dnf_count) of an
AverageFinishPosition result. -/
def AvgFinishResult.counts : AvgFinishResult → Option (Nat × Nat × Nat)
  | .noData => none
  | .ok _ t f d _ _ => some (t, f, d)

/-- Count fields (total_races, dnf_count) of a DNFRate result. -/
def DNFRateResult.counts : DNFRateResult → Option (Nat × Nat)
  | .noData => none
  | .ok _ t d _ => some (t, d)

/-- F1DataLoader.get_constructor_standings (loader.py lines 159-172):
filter the standings table to the race ids of the season-resolved (or
minimum-year-resolved) races. -/
def get_constructor_standings (standings : List StandingRow) (races : List RaceRow)
    (season : Option Int) : List StandingRow :=
  if truthyInt season then
    standings.filter (fun s =>
      ((get_races races season).map (fun r => r.raceId)).contains s.raceId)
  else
    standings.filter (fun s =>
      ((get_races races none).map (fun r => r.raceId)).contains s.raceId)

/-- A standings row left-merged with races[["raceId", "year", "round"]]
(loader.py line 203); year and round are null when the raceId is not among
the minimum-year races. -/
structure StandingYearRow where
  standing : StandingRow
  year : Option Int
  round : Option Int
deriving DecidableEq

/-- Group key of groupby(["year", "constructorId"]) in
get_constructor_championship_positions. -/
def champKey (r : StandingYearRow) : Option Int × Int :=
  (r.year, r.standing.constructorId)

/-- Rows of standings_with_year that take part in the final groupby
(loader.py lines 196-207): the season-filtered standings merged with races
for year/round, restricted to rows whose group key is non-null (pandas
groupby drops null keys). -/
def champRows (standings : List StandingRow) (races : List RaceRow)
    (season : Option Int) : List StandingYearRow :=
  let st := get_constructor_standings standings races season
  let races_all := get_races races none
  (st.map (fun s =>
    ({ standing := s,
       year := (races_all.find? (fun r => r.raceId == s.raceId)).map (fun r => r.year),
       round := (races_all.find? (fun r => r.raceId == s.raceId)).map (fun r => r.round) }
     : StandingYearRow))).filter (fun r => r.year.isSome)

/-- F1DataLoader.get_constructor_championship_positions (loader.py lines
194-211): groupby(["year", "constructorId"]).last() — for every group key,
the row reported is the LAST row of the group in table-occurrence order
(pandas .last with no intra-row nulls).  The inter-group key order is not
load-bearing for any claim (pandas sorts group keys); the embedding lists
each distinct key once via List.dedup. -/
def get_constructor_championship_positions (standings : List StandingRow)
    (races : List RaceRow) (season : Option Int) :
    List ((Option Int × Int) × Option StandingYearRow) :=
  let st := get_constructor_standings standings races season
  if st.isEmpty then []
  else
    let rows := champRows standings races season
    ((rows.map champKey).dedup).map
      (fun k => (k, (rows.filter (fun r => decide (champKey r = k))).getLast?))

/-- Row of the constructor-results view (loader.py lines 174-192): a
results row joined with race context and constructor name, with position
coerced to nullable numeric and points coerced with fillna(0). -/
structure CResultRow where
  raceId : Int
  driverId : Int
  constructorId : Int
  year : Option Int
  round : Option Int
  name : Option String
  position : Option Int
  points : Int
deriving DecidableEq

/-- F1DataLoader.get_constructor_results (loader.py lines 174-192). -/
def get_constructor_results (races : List RaceRow) (results : List ResultRow)
    (constructors : List ConstructorRow) (season constructor_id : Option Int) :
    List CResultRow :=
  let rs := get_races races season
  let res0 := get_results results (some (rs.map (fun r => r.raceId)))
  let res1 := if truthyInt constructor_id
              then res0.filter (fun r => r.constructorId == constructor_id.getD 0)
              else res0
  res1.map (fun r =>
    let q := rs.find? (fun q => q.raceId == r.raceId)
    let c := constructors.find? (fun c => c.constructorId == r.constructorId)
    { raceId := r.raceId, driverId := r.driverId, constructorId := r.constructorId,
      year := q.map (fun q => q.year), round := q.map (fun q => q.round),
      name := c.map (fun c => c.name),
      position := r.position.toNum,
      points := (r.points.toNum).getD 0 })

/-- Aggregated row of the constructor-race-wins view (loader.py lines
219-229): one row per (raceId, constructorId, year, round) group with
best/worst position, count of non-null positions, and summed points. -/
structure AggRaceRow where
  raceId : Int
  constructorId : Int
  year : Option Int
  round : Option Int
  best_position : Option Int
  worst_position : Option Int
  drivers_count : Nat
  total_points : Int
deriving DecidableEq

/-- Group key of groupby(["raceId", "constructorId", "year", "round"]). -/
def cwKey (r : CResultRow) : Int × Int × Option Int × Option Int :=
  (r.raceId, r.constructorId, r.year, r.round)

/-- Aggregation of one (raceId, constructorId, year, round) group:
min / max / count over the nullable position column (pandas skips nulls)
and sum over points. -/
def aggGroup (rows : List CResultRow) (k : Int × Int × Option Int × Option Int) :
    AggRaceRow :=
  let g := rows.filter (fun r => decide (cwKey r = k))
  let ps := g.filterMap (fun r => r.position)
  { raceId := k.1, constructorId := k.2.1, year := k.2.2.1, round := k.2.2.2,
    best_position := ps.min?, worst_position := ps.max?,
    drivers_count := ps.length, total_points := (g.map (fun r => r.points)).sum }

/-- F1DataLoader.get_constructor_race_wins (loader.py lines 213-238):
group the constructor results per (raceId, constructorId, year, round)
(pandas drops rows with a null group key), aggregate, and keep the groups
with best_position 1, worst_position 2 and drivers_count 2. -/
def get_constructor_race_wins (races : List RaceRow) (results : List ResultRow)
    (constructors : List ConstructorRow) (season constructor_id : Option Int) :
    List AggRaceRow :=
  let res := get_constructor_results races results constructors season constructor_id
  let rows := res.filter (fun r => r.year.isSome && r.round.isSome)
  let grouped := ((rows.map cwKey).dedup).map (fun k => aggGroup rows k)
  grouped.filter (fun a =>
    a.best_position == some 1 && a.worst_position == some 2 && a.drivers_count == 2)

/-- A metric registry for one fixed request: each registered name is
mapped to the outcome its calculator produces on that request — a
response value, or a raised exception message. -/
def Registry (α : Type) : Type := List (String × Except String α)

/-- One iteration of the accumulation loop of the bulk endpoints
(metrics.py lines 210-227 and 300-315): an unknown name or a raised
exception appends a per-metric error message, a successful calculation
appends its response. -/
def bulkStepF {α : Type} (reg : Registry α) (acc : List α × List String)
    (name : String) : List α × List String :=
  match reg.find? (fun e => e.1 == name) with
  | none => (acc.1, acc.2 ++ ["Metric '" ++ name ++ "' not found"])
  | some (_, .ok r) => (acc.1 ++ [r], acc.2)
  | some (_, .error msg) =>
      (acc.1, acc.2 ++ ["Error calculating " ++ name ++ ": " ++ msg])

/-- The whole accumulation loop over the requested metric names. -/
def bulkStep {α : Type} (reg : Registry α) (metric_names : List String) :
    List α × List String :=
  metric_names.foldl (bulkStepF reg) ([], [])

/-- calculate_multiple_driver_metrics (metrics.py lines 201-235; the loop
of calculate_multiple_constructor_metrics at lines 297-323 is identical):
when there are errors and no results the call fails with HTTP 400
carrying the error list; otherwise it succeeds with the collected
results — the response type List[MetricResponse] carries no error
entries. -/
def bulkCalculate {α : Type} (reg : Registry α) (metric_names : List String) :
    Except (List String) (List α) :=
  let step := bulkStep reg metric_names
  if !step.2.isEmpty && step.1.isEmpty then .error step.2 else .ok step.1

/-- The responses of the successfully calculated metrics, in request
order. -/
def bulkSuccesses {α : Type} (reg : Registry α) (metric_names : List String) :
    List α :=
  metric_names.filterMap (fun name =>
    match reg.find? (fun e => e.1 == name) with
    | some (_, .ok r) => some r
    | _ => none)

/-- The per-metric error messages of the failed metrics, in request
order. -/
def bulkErrors {α : Type} (reg : Registry α) (metric_names : List String) :
    List String :=
  metric_names.filterMap (fun name =>
    match reg.find? (fun e => e.1 == name) with
    | none => some ("Metric '" ++ name ++ "' not found")
    | some (_, .error msg) => some ("Error calculating " ++ name ++ ": " ++ msg)
    | some (_, .ok _) => none)

/-- calculate_constructor_metric (metrics.py lines 326-355): unknown
metric name fails with 404; a falsy constructor_id (absent or 0) fails
with 400 before any calculation; a calculator exception fails with 500;
otherwise the response is returned. -/
def calculate_constructor_metric {α : Type} (reg : Registry α)
    (metric_name : String) (constructor_id : Option Int) :
    Except (Nat × String) α :=
  if (reg.find? (fun e => e.1 == metric_name)).isNone then
    .error (404, "Metric '" ++ metric_name ++ "' not found")
  else if !truthyInt constructor_id then
    .error (400, "constructor_id is required for constructor metrics")
  else
    match reg.find? (fun e => e.1 == metric_name) with
    | some (_, .ok r) => .ok r
    | some (_, .error msg) => .error (500, "Error calculating metric: " ++ msg)
    | none => .error (404, "Metric '" ++ metric_name ++ "' not found")

/-- A Python value that can appear among cache parameters or inside a
serialised result: None, bool, int, str, or a list of values.  These are
exactly the JSON-representable values, on which json serialisation
round-trips losslessly (the spec's MetricResult invariant forbids
non-plain values in results). -/
inductive PyVal where
  | none
  | bool (b : Bool)
  | int (n : Int)
  | str (s : String)
  | list (l : List PyVal)

/-- Decimal digits of a positive number, least significant first
(fuel-based structural recursion so that the kernel can evaluate it; the
fuel n is always sufficient since n / 10 decreases). -/
def natDigitsRevGo : Nat → Nat → List Char
  | _, 0 => []
  | 0, _ + 1 => []
  | fuel + 1, n + 1 =>
      Char.ofNat (48 + (n + 1) % 10) :: natDigitsRevGo fuel ((n + 1) / 10)

/-- Decimal digits of a positive number, least significant first. -/
def natDigitsRev (n : Nat) : List Char :=
  natDigitsRevGo n n

/-- Python repr of a natural number. -/
def natStr (n : Nat) : String :=
  if n = 0 then "0" else String.mk (natDigitsRev n).reverse

/-- Python repr of an integer (what json.dumps prints for int). -/
def intStr : Int → String
  | .ofNat n => natStr n
  | .negSucc n => "-" ++ natStr (n + 1)

/-- Lowercase hexadecimal digit. -/
def hexDigit (n : Nat) : Char :=
  if n < 10 then Char.ofNat (48 + n) else Char.ofNat (87 + n)

/-- Four lowercase hex digits (for the \u escapes and the hex digest). -/
def hex4 (n : Nat) : String :=
  String.mk [hexDigit (n / 4096 % 16), hexDigit (n / 256 % 16),
    hexDigit (n / 16 % 16), hexDigit (n % 16)]

/-- json.dumps escaping of one character with the default ensure_ascii:
quote, backslash and the short control escapes, \u00XX for other control
characters, plain ASCII unescaped, \uXXXX (with surrogate pairs beyond
the BMP) for non-ASCII. -/
def escChar (c : Char) : String :=
  if c = '"' then "\\\""
  else if c = '\\' then "\\\\"
  else if c = Char.ofNat 10 then "\\n"
  else if c = Char.ofNat 13 then "\\r"
  else if c = Char.ofNat 9 then "\\t"
  else if c = Char.ofNat 8 then "\\b"
  else if c = Char.ofNat 12 then "\\f"
  else if c.toNat < 32 then "\\u" ++ hex4 c.toNat
  else if c.toNat < 128 then String.singleton c
  else if c.toNat < 65536 then "\\u" ++ hex4 c.toNat
  else
    "\\u" ++ hex4 (55296 + (c.toNat - 65536) / 1024) ++
    "\\u" ++ hex4 (56320 + (c.toNat - 65536) % 1024)

/-- json.dumps escaping of a whole string body. -/
def escString (s : String) : String :=
  String.join (s.data.map escChar)

/-- json.dumps of a string: quoted escaped body. -/
def serStr (s : String) : String :=
  "\"" ++ escString s ++ "\""

/-- Join with a separator (the ", " item separator of json.dumps). -/
def joinSep (sep : String) : List String → String
  | [] => ""
  | [x] => x
  | x :: y :: xs => x ++ sep ++ joinSep sep (y :: xs)

mutual

/-- json.dumps of a Python value (default separators). -/
def serVal : PyVal → String
  | .none => "null"
  | .bool true => "true"
  | .bool false => "false"
  | .int n => intStr n
  | .str s => serStr s
  | .list l => "[" ++ joinSep ", " (serList l) ++ "]"

/-- json.dumps of the members of a list value. -/
def serList : List PyVal → List String
  | [] => []
  | v :: vs => serVal v :: serList vs

end

/-- The keyword-argument mapping of a cache call: association list with
string keys (Python dict keys are unique). -/
def Params : Type := List (String × PyVal)

/-- The key sort performed by json.dumps(sort_keys=True). -/
def sortParams (p : List (String × PyVal)) : List (String × PyVal) :=
  sortBy (fun a b => decide (a.1 ≤ b.1)) p

/-- json.dumps(kwargs, sort_keys=True, default=str) on a kwargs dict of
plain values (cache.py line 26). -/
def serParams (p : Params) : String :=
  "\x7b" ++ joinSep ", "
    ((sortParams p).map (fun kv => serStr kv.1 ++ ": " ++ serVal kv.2)) ++ "\x7d"

/-- The hash pre-image f-string f"{metric_name}:{params_str}"
(cache.py line 27). -/
def combinedKey (metric_name : String) (params : Params) : String :=
  metric_name ++ ":" ++ serParams params

/-- Truncation of a 32-bit word. -/
def w32 (n : Nat) : Nat := n % 4294967296

/-- 32-bit right rotation. -/
def rotr32 (x n : Nat) : Nat := w32 ((x >>> n) ||| (x <<< (32 - n)))

/-- The SHA-256 round constants. -/
def sha256K : List Nat :=
  [1116352408, 1899447441, 3049323471, 3921009573, 961987163, 1508970993,
   2453635748, 2870763221, 3624381080, 310598401, 607225278, 1426881987,
   1925078388, 2162078206, 2614888103, 3248222580, 3835390401, 4022224774,
   264347078, 604807628, 770255983, 1249150122, 1555081692, 1996064986,
   2554220882, 2821834349, 2952996808, 3210313671, 3336571891, 3584528711,
   113926993, 338241895, 666307205, 773529912, 1294757372, 1396182291,
   1695183700, 1986661051, 2177026350, 2456956037, 2730485921, 2820302411,
   3259730800, 3345764771, 3516065817, 3600352804, 4094571909, 275423344,
   430227734, 506948616, 659060556, 883997877, 958139571, 1322822218,
   1537002063, 1747873779, 1955562222, 2024104815, 2227730452, 2361852424,
   2428436474, 2756734187, 3204031479, 3329325298]

/-- UTF-8 encoding of one character as byte values. -/
def utf8Bytes (c : Char) : List Nat :=
  let n := c.toNat
  if n < 128 then [n]
  else if n < 2048 then [192 + n / 64, 128 + n % 64]
  else if n < 65536 then [224 + n / 4096, 128 + n / 64 % 64, 128 + n % 64]
  else [240 + n / 262144, 128 + n / 4096 % 64, 128 + n / 64 % 64, 128 + n % 64]

/-- UTF-8 bytes of a string (str.encode()). -/
def strBytes (s : String) : List Nat :=
  s.data.foldr (fun c acc => utf8Bytes c ++ acc) []

/-- Big-endian bytes of a number, fixed width. -/
def bytesBE : Nat → Nat → List Nat
  | 0, _ => []
  | k+1, n => (n >>> (8 * k)) % 256 :: bytesBE k n

/-- SHA-256 message padding. -/
def sha256Pad (msg : List Nat) : List Nat :=
  let z := (119 - msg.length % 64) % 64
  msg ++ [128] ++ List.replicate z 0 ++ bytesBE 8 (msg.length * 8)

/-- Big-endian 32-bit words of a byte list. -/
def toWords : List Nat → List Nat
  | b0 :: b1 :: b2 :: b3 :: rest =>
      (b0 * 16777216 + b1 * 65536 + b2 * 256 + b3) :: toWords rest
  | _ => []

/-- Message-schedule extension: append k more words. -/
def schedExtend (w : List Nat) : Nat → List Nat
  | 0 => w
  | k+1 =>
      let i := w.length
      let x15 := w.getD (i - 15) 0
      let x2 := w.getD (i - 2) 0
      let s0 := rotr32 x15 7 ^^^ rotr32 x15 18 ^^^ (x15 >>> 3)
      let s1 := rotr32 x2 17 ^^^ rotr32 x2 19 ^^^ (x2 >>> 10)
      schedExtend (w ++ [w32 (w.getD (i - 16) 0 + s0 + w.getD (i - 7) 0 + s1)]) k

/-- SHA-256 working state. -/
structure SHAState where
  a : Nat
  b : Nat
  c : Nat
  d : Nat
  e : Nat
  f : Nat
  g : Nat
  h : Nat
deriving DecidableEq

/-- One SHA-256 compression round. -/
def compressRound (st : SHAState) (kw : Nat × Nat) : SHAState :=
  let S1 := rotr32 st.e 6 ^^^ rotr32 st.e 11 ^^^ rotr32 st.e 25
  let ch := (st.e &&& st.f) ^^^ ((st.e ^^^ 4294967295) &&& st.g)
  let t1 := w32 (st.h + S1 + ch + kw.1 + kw.2)
  let S0 := rotr32 st.a 2 ^^^ rotr32 st.a 13 ^^^ rotr32 st.a 22
  let mj := (st.a &&& st.b) ^^^ (st.a &&& st.c) ^^^ (st.b &&& st.c)
  let t2 := w32 (S0 + mj)
  ⟨w32 (t1 + t2), st.a, st.b, st.c, w32 (st.d + t1), st.e, st.f, st.g⟩

/-- SHA-256 compression of one 64-byte block. -/
def compressBlock (st : SHAState) (block : List Nat) : SHAState :=
  let w := schedExtend (toWords block) 48
  let st1 := (sha256K.zip w).foldl compressRound st
  ⟨w32 (st.a + st1.a), w32 (st.b + st1.b), w32 (st.c + st1.c), w32 (st.d + st1.d),
   w32 (st.e + st1.e), w32 (st.f + st1.f), w32 (st.g + st1.g), w32 (st.h + st1.h)⟩

/-- Recursion worker splitting a byte list into 64-byte blocks. -/
def chunks64Go : Nat → List Nat → List (List Nat)
  | _, [] => []
  | 0, _ :: _ => []
  | fuel + 1, b :: rest => ((b :: rest).take 64) :: chunks64Go fuel ((b :: rest).drop 64)

/-- Split a byte list into 64-byte blocks (fuel-based structural
recursion; the fuel is always sufficient since drop 64 shortens the
list). -/
def chunks64 (l : List Nat) : List (List Nat) :=
  chunks64Go l.length l

/-- Eight lowercase hex digits of a 32-bit word. -/
def hex8 (n : Nat) : String := hex4 (n / 65536) ++ hex4 (n % 65536)

/-- hashlib.sha256(s.encode()).hexdigest(). -/
def sha256hex (s : String) : String :=
  let blocks := chunks64 (sha256Pad (strBytes s))
  let st := blocks.foldl compressBlock
    ⟨1779033703, 3144134277, 1013904242, 2773480762,
     1359893119, 2600822924, 528734635, 1541459225⟩
  String.join ([st.a, st.b, st.c, st.d, st.e, st.f, st.g, st.h].map hex8)

/-- MetricCache._generate_key (cache.py lines 23-30): the first 16 hex
characters (hexdigest()[:16]) of the SHA-256 of
metric_name ++ ":" ++ sorted-key JSON of the parameters. -/
def generate_key (metric_name : String) (params : Params) : String :=
  String.mk ((sha256hex (combinedKey metric_name params)).data.take 16)

/-- One persisted cache entry (cache.py set, lines 87-96): creation time
(the file mtime used by get for the TTL check), the metric name (used by
selective clear), the serialised result and its type tag.  The modelled
result domain is the JSON-plain PyVal, on which the json round-trip is
the identity, so the stored result is kept as a value. -/
structure CacheEntry where
  createdAt : Int
  metric_name : String
  result : PyVal
  result_type : String

/-- The cache directory: one entry per fingerprint key. -/
def CacheStore : Type := List (String × CacheEntry)

/-- MetricCache.get (cache.py lines 36-70): disabled cache returns
absent; no entry returns absent; an entry older than the TTL is unlinked
and absent is returned; otherwise the stored result is returned (the
MetricResult reconstruction is the identity on the stored dict).  The
returned pair is (result, store after the call). -/
def MetricCache.get (enabled : Bool) (ttl : Int) (store : CacheStore)
    (metric_name : String) (params : Params) (now : Int) :
    Option PyVal × CacheStore :=
  if !enabled then (Option.none, store)
  else
    let key := generate_key metric_name params
    match store.find? (fun e => e.1 == key) with
    | Option.none => (Option.none, store)
    | some (_, entry) =>
        if ttl < now - entry.createdAt then
          (Option.none, store.filter (fun e => e.1 != key))
        else (some entry.result, store)

/-- MetricCache.set (cache.py lines 72-101): disabled cache stores
nothing; otherwise the entry file under the fingerprint key is
(over)written with the serialised result and the current time. -/
def MetricCache.set (enabled : Bool) (store : CacheStore) (metric_name : String)
    (params : Params) (result : PyVal) (result_type : String) (now : Int) :
    CacheStore :=
  if !enabled then store
  else
    let key := generate_key metric_name params
    (store.filter (fun e => e.1 != key)) ++
      [(key, ⟨now, metric_name, result, result_type⟩)]

/-- Key-strict order on parameter items, antisymmetric because String
less-than is asymmetric. -/
instance : IsAntisymm (String × PyVal) (fun a b => a.1 < b.1) :=
  ⟨fun _ _ h1 h2 => (lt_asymm h1 h2).elim⟩

/-- A character that json.dumps emits unchanged: printable ASCII other
than the quote and the backslash. -/
def plainChar (c : Char) : Bool :=
  decide (32 ≤ c.toNat) && decide (c.toNat < 127) && !(c == '"') && !(c == '\\')

mutual

/-- A value whose strings consist of plain characters only (no json
escaping occurs when serialising it). -/
def plainVal : PyVal → Bool
  | .none => true
  | .bool _ => true
  | .int _ => true
  | .str s => s.data.all plainChar
  | .list l => plainValList l

/-- Plainness of all members of a list value. -/
def plainValList : List PyVal → Bool
  | [] => true
  | v :: vs => plainVal v && plainValList vs

end

/-- Numeric value of a digit run (inverse of the digit printer). -/
def digitsVal (ds : List Char) : Nat :=
  ds.foldl (fun a c => a * 10 + (c.toNat - 48)) 0

/-- Parse a non-empty run of decimal digits. -/
def parseNat (cs : List Char) : Option (Nat × List Char) :=
  let digits := cs.takeWhile (fun c => c.isDigit)
  if digits.isEmpty then Option.none
  else some (digitsVal digits, cs.dropWhile (fun c => c.isDigit))

/-- Parse an escape-free string body up to the closing quote. -/
def parseStrBody (cs : List Char) : Option (String × List Char) :=
  match cs.dropWhile (fun c => !(c == '"')) with
  | '"' :: rest => some (String.mk (cs.takeWhile (fun c => !(c == '"'))), rest)
  | _ => Option.none

mutual

/-- Recursive-descent parser for the json fragment produced by serVal on
plain values; the fuel dominates the nesting depth. -/
def parseVal : Nat → List Char → Option (PyVal × List Char)
  | 0, _ => Option.none
  | _ + 1, [] => Option.none
  | fuel + 1, c :: rest =>
      if c.isDigit then (parseNat (c :: rest)).map (fun p => (.int (p.1 : Int), p.2))
      else if c == '-' then (parseNat rest).map (fun p => (.int (-(p.1 : Int)), p.2))
      else if c == '"' then (parseStrBody rest).map (fun p => (.str p.1, p.2))
      else if c == '[' then
        match rest with
        | ']' :: rest2 => some (.list [], rest2)
        | _ => (parseElems fuel rest).map (fun p => (.list p.1, p.2))
      else
        match c :: rest with
        | 'n' :: 'u' :: 'l' :: 'l' :: r => some (.none, r)
        | 't' :: 'r' :: 'u' :: 'e' :: r => some (.bool true, r)
        | 'f' :: 'a' :: 'l' :: 's' :: 'e' :: r => some (.bool false, r)
        | _ => Option.none

/-- Parse one or more comma-separated values followed by the closing
bracket. -/
def parseElems : Nat → List Char → Option (List PyVal × List Char)
  | 0, _ => Option.none
  | fuel + 1, cs =>
      match parseVal fuel cs with
      | Option.none => Option.none
      | some (v, rest) =>
          match rest with
          | ']' :: rest2 => some ([v], rest2)
          | ',' :: ' ' :: rest2 => (parseElems fuel rest2).map (fun p => (v :: p.1, p.2))
          | _ => Option.none

end

mutual

/-- Fuel bound for parsing a serialised value. -/
def sizeVal : PyVal → Nat
  | .none => 1
  | .bool _ => 1
  | .int _ => 1
  | .str _ => 1
  | .list l => 1 + sizeList l

/-- Fuel bound for parsing serialised list members. -/
def sizeList : List PyVal → Nat
  | [] => 0
  | v :: vs => sizeVal v + sizeList vs + 1

end

def pairsTail (ps : List (String × PyVal)) (r : List Char) : List Char :=
  match ps with
  | [] => '}' :: r
  | x :: xs => ',' :: ' ' ::
      ((joinSep ", " ((x :: xs).map
        (fun kv => serStr kv.1 ++ ": " ++ serVal kv.2))).data ++ '}' :: r)

theorem mem_insertStable (le : α → α → Bool) (x a : α) (l : List α) :
    a ∈ insertStable le x l ↔ a = x ∨ a ∈ l := by
  induction l with
  | nil => simp [insertStable]
  | cons y ys ih =>
      simp only [insertStable]
      by_cases h : le y x = true
      · simp [h, ih]; tauto
      · simp [h]

theorem mem_sortBy (le : α → α → Bool) (a : α) (l : List α) :
    a ∈ sortBy le l ↔ a ∈ l := by
  induction l with
  | nil => simp [sortBy]
  | cons y ys ih =>
      simp only [sortBy, List.foldr] at *
      rw [mem_insertStable]
      simp [ih]

theorem mem_get_races {races : List RaceRow} {season : Option Int} {r : RaceRow}
    (h : r ∈ get_races races season) :
    r ∈ races ∧ MIN_YEAR ≤ r.year ∧ (truthyInt season → r.year = season.getD 0) := by
  simp only [get_races] at h
  rw [mem_sortBy] at h
  by_cases hs : truthyInt season = true
  · rw [if_pos hs] at h
    rw [List.mem_filter, List.mem_filter] at h
    obtain ⟨⟨hm, hy⟩, he⟩ := h
    refine ⟨hm, by simpa using hy, fun _ => by simpa using he⟩
  · rw [if_neg hs] at h
    rw [List.mem_filter] at h
    obtain ⟨hm, hy⟩ := h
    exact ⟨hm, by simpa using hy, fun hc => absurd hc hs⟩

theorem mem_of_mem_select_branch {p : ResultRow → Bool} {l : List ResultRow}
    {b : Bool} {r : ResultRow} (h : r ∈ if b then l.filter p else l) : r ∈ l := by
  by_cases hb : b = true
  · rw [if_pos hb] at h; exact (List.mem_filter.mp h).1
  · rw [if_neg hb] at h; exact h

/-- C1 counterexample: with an explicit race-id list, rows for a race below
the minimum year are returned.  races.csv holds race 1 in year 2005 and
race 2 in 2020; a single results row belongs to race 1; calling
get_driver_results_with_names with race_ids=[1] returns that row, which
references race 1, whose year 2005 is below MIN_YEAR = 2011. -/
theorem C1_counterexample_race_ids_escape_floor :
    (get_driver_results_with_names
        [⟨1, 2005, 1⟩, ⟨2, 2020, 1⟩]
        [⟨10, 1, 7, 3, Cell.int 1, "1", some 1, Cell.int 25, 1⟩]
        [] none none (some [1])).map (fun t => t.result.raceId) = [1] ∧
    ([⟨1, 2005, 1⟩, ⟨2, 2020, 1⟩] : List RaceRow).filter
        (fun q => q.raceId == 1) = [⟨1, 2005, 1⟩] ∧
    (2005 : Int) < MIN_YEAR := by decide

/-- C1 amended: the season floor holds for get_races under all parameters,
and for get_driver_results_with_names whenever no explicit race-id list is
supplied: every returned row then joins to a race of the races table with
the same raceId and year at least MIN_YEAR.  (With an explicit race-id
list the floor can be escaped, as the counterexample shows.) -/
theorem C1_season_floor_without_race_ids :
    (∀ (races : List RaceRow) (season : Option Int) (r : RaceRow),
        r ∈ get_races races season → MIN_YEAR ≤ r.year) ∧
    (∀ (races : List RaceRow) (results : List ResultRow) (drivers : List DriverRow)
        (driver_id season : Option Int) (t : DriverResultRow),
        t ∈ get_driver_results_with_names races results drivers driver_id season none →
        ∃ q : RaceRow, t.race = some q ∧ q.raceId = t.result.raceId ∧
          MIN_YEAR ≤ q.year ∧ q ∈ races) := by
  constructor
  · intro races season r h
    exact (mem_get_races h).2.1
  · intro races results drivers driver_id season t ht
    simp only [get_driver_results_with_names] at ht
    rw [List.mem_map] at ht
    obtain ⟨r, hr, rfl⟩ := ht
    have hr0 : r ∈ get_results results
        (some (orElseIds none ((get_races races season).map (fun q => q.raceId)))) :=
      mem_of_mem_select_branch hr
    have hrid : r.raceId ∈ (get_races races season).map (fun q => q.raceId) := by
      simp only [get_results, orElseIds, List.mem_filter] at hr0
      simpa using hr0.2
    obtain ⟨q, hq, hqid⟩ := List.mem_map.mp hrid
    have hfind : ((get_races races season).find? (fun p => p.raceId == r.raceId)).isSome := by
      rw [List.find?_isSome]
      exact ⟨q, hq, by simp [hqid]⟩
    obtain ⟨p, hp⟩ := Option.isSome_iff_exists.mp hfind
    have hpmem := List.mem_of_find?_eq_some hp
    have hpid : p.raceId = r.raceId := by
      have := List.find?_some hp
      simpa using this
    have hfacts := mem_get_races hpmem
    exact ⟨p, by simpa using hp, hpid, hfacts.2.1, hfacts.1⟩

/-- C1 witness: the amended season-floor theorem applied at a concrete
input. -/
theorem C1_season_floor_witness :
    MIN_YEAR ≤ (⟨2, 2020, 1⟩ : RaceRow).year :=
  C1_season_floor_without_race_ids.1 [⟨2, 2020, 1⟩] none ⟨2, 2020, 1⟩ (by decide)

/-- C2 counterexample: the explicit race-id list overrides the
season-resolved set instead of intersecting with it.  The season-2020
resolved race-id set is [2]; the explicit list is [1]; the intersection is
empty, so the claim predicts no rows, but the code returns the results row
of race 1. -/
theorem C2_counterexample_race_ids_override :
    (get_races [⟨1, 2005, 1⟩, ⟨2, 2020, 1⟩] (some 2020)).map (fun r => r.raceId) = [2] ∧
    (get_driver_results_with_names
        [⟨1, 2005, 1⟩, ⟨2, 2020, 1⟩]
        [⟨10, 1, 7, 3, Cell.int 1, "1", some 1, Cell.int 25, 1⟩]
        [] none (some 2020) (some [1])).map (fun t => t.result.raceId) = [1] ∧
    ¬ ((1 : Int) ∈ (get_races [⟨1, 2005, 1⟩, ⟨2, 2020, 1⟩] (some 2020)).map
        (fun r => r.raceId)) := by decide

/-- C2 amended: when a non-empty explicit race-id list is supplied, it
replaces the season-resolved race-id set: the returned rows are exactly
the results rows whose raceId lies in the explicit list (after the truthy
entity filters), independently of the season parameter.  This holds both
for get_driver_results_with_names and for the shared result selection of
the driver race metrics. -/
theorem C2_race_ids_replace_resolved_set
    (races : List RaceRow) (results : List ResultRow) (drivers : List DriverRow)
    (driver_id constructor_id season : Option Int) (l : List Int) (hl : l ≠ []) :
    (get_driver_results_with_names races results drivers driver_id season
        (some l)).map (fun t => t.result) =
      (if truthyInt driver_id
       then (results.filter (fun r => l.contains r.raceId)).filter
              (fun r => r.driverId == driver_id.getD 0)
       else results.filter (fun r => l.contains r.raceId)) ∧
    metricSelectResults races results driver_id constructor_id season (some l) =
      (let base := results.filter (fun r => l.contains r.raceId)
       let base1 := if truthyInt driver_id
                    then base.filter (fun r => r.driverId == driver_id.getD 0)
                    else base
       if truthyInt constructor_id
       then base1.filter (fun r => r.constructorId == constructor_id.getD 0)
       else base1) := by
  have hempty : l.isEmpty = false := by
    cases l with
    | nil => exact absurd rfl hl
    | cons a as => rfl
  constructor
  · simp only [get_driver_results_with_names, orElseIds, hempty, if_false,
      get_results]
    by_cases hd : truthyInt driver_id = true
    · simp [hd, List.map_map, Function.comp_def]
    · simp [hd, List.map_map, Function.comp_def]
  · simp only [metricSelectResults, orElseIds, hempty, if_false, get_results]
    simp

/-- C2 witness: the amended replacement theorem applied at a concrete
input. -/
theorem C2_race_ids_replace_witness :
    (get_driver_results_with_names [⟨2, 2020, 1⟩]
        [⟨10, 2, 7, 3, Cell.int 1, "1", some 1, Cell.int 25, 1⟩]
        [] none none (some [2])).map (fun t => t.result) =
      (if truthyInt none
       then (([⟨10, 2, 7, 3, Cell.int 1, "1", some 1, Cell.int 25, 1⟩] :
                List ResultRow).filter (fun r => [(2 : Int)].contains r.raceId)).filter
              (fun r => r.driverId == (none : Option Int).getD 0)
       else ([⟨10, 2, 7, 3, Cell.int 1, "1", some 1, Cell.int 25, 1⟩] :
                List ResultRow).filter (fun r => [(2 : Int)].contains r.raceId)) ∧
    metricSelectResults [⟨2, 2020, 1⟩]
        [⟨10, 2, 7, 3, Cell.int 1, "1", some 1, Cell.int 25, 1⟩]
        none none none (some [2]) =
      (let base := ([⟨10, 2, 7, 3, Cell.int 1, "1", some 1, Cell.int 25, 1⟩] :
                List ResultRow).filter (fun r => [(2 : Int)].contains r.raceId)
       let base1 := if truthyInt none
                    then base.filter (fun r => r.driverId == (none : Option Int).getD 0)
                    else base
       if truthyInt none
       then base1.filter (fun r => r.constructorId == (none : Option Int).getD 0)
       else base1) :=
  C2_race_ids_replace_resolved_set [⟨2, 2020, 1⟩]
    [⟨10, 2, 7, 3, Cell.int 1, "1", some 1, Cell.int 25, 1⟩]
    [] none none none [2] (by decide)

theorem metricSelect_withPosition (races : List RaceRow) (results : List ResultRow)
    (driver_id constructor_id season : Option Int) (race_ids : Option (List Int))
    (c : Cell) :
    metricSelectResults races (results.map (fun r => r.withPosition c))
        driver_id constructor_id season race_ids =
      (metricSelectResults races results driver_id constructor_id season
        race_ids).map (fun r => r.withPosition c) := by
  simp only [metricSelectResults, get_results, List.filter_map]
  by_cases hd : truthyInt driver_id = true <;>
    by_cases hc : truthyInt constructor_id = true <;>
      simp [hd, hc, List.filter_map, Function.comp_def, ResultRow.withPosition]

theorem filter_withPosition_comm (l : List ResultRow) (c : Cell)
    (p : ResultRow → Bool) (hp : ∀ r, p (r.withPosition c) = p r) :
    (l.map (fun r => r.withPosition c)).filter p =
      (l.filter p).map (fun r => r.withPosition c) := by
  rw [List.filter_map]
  congr 1
  apply List.filter_congr
  intro x _
  simpa [Function.comp_def] using hp x

theorem isEmpty_map (f : α → β) (l : List α) : (l.map f).isEmpty = l.isEmpty := by
  cases l <;> rfl

/-- C5 counterexample: a result row whose position cell is the non-numeric
Ergast null sentinel (a DNF by the coerced-null-position rule, as the
first conjunct shows) but whose positionOrder is the positive
classification 15 is NOT excluded from the average-finish denominator
(counts = (total 1, finished 1, dnf 0) instead of the claimed (1, 0, 1));
and DNFRate detects DNFs by string pattern matching on positionText: a row
with null-coerced position whose positionText starts with a digit is not
counted (counts = (1, dnf 0) instead of the claimed (1, 1)). -/
theorem C5_counterexample_dnf_signals :
    (Cell.str "\\N").toNum = none ∧
    (AverageFinishPosition_calculate [⟨5, 2020, 1⟩]
        [⟨10, 5, 7, 3, Cell.str "\\N", "R", some 15, Cell.int 0, 4⟩]
        none none none none).counts = some (1, 1, 0) ∧
    (DNFRate_calculate [⟨5, 2020, 1⟩]
        [⟨10, 5, 7, 3, Cell.str "\\N", "4", some 4, Cell.int 0, 4⟩]
        none none none none).counts = some (1, 0) := by decide

/-- C5 amended: non-numeric position cells are coerced to a null marker by
the total function Cell.toNum (never raising); but the driver race metrics
are not driven by that field at all: AverageFinishPosition and DNFRate are
invariant under arbitrary rewrites of the position cell; the
average-finish denominator consists of the rows with positive present
positionOrder while total_races counts every selected row and dnf_count is
their difference; and DNFRate detects DNFs by string pattern matching on
the display column positionText (rows whose positionText starts with a
non-digit). -/
theorem C5_dnf_detection_characterisation :
    (∀ s : String, (Cell.str s).toNum = strToInt? s ∧ Cell.null.toNum = none) ∧
    (∀ (races : List RaceRow) (results : List ResultRow)
        (driver_id constructor_id season : Option Int)
        (race_ids : Option (List Int)) (c : Cell),
      AverageFinishPosition_calculate races (results.map (fun r => r.withPosition c))
          driver_id constructor_id season race_ids =
        AverageFinishPosition_calculate races results driver_id constructor_id season race_ids ∧
      DNFRate_calculate races (results.map (fun r => r.withPosition c))
          driver_id constructor_id season race_ids =
        DNFRate_calculate races results driver_id constructor_id season race_ids) ∧
    (∀ (races : List RaceRow) (results : List ResultRow)
        (driver_id constructor_id season : Option Int)
        (race_ids : Option (List Int)) (res finished : List ResultRow),
      res = metricSelectResults races results driver_id constructor_id season race_ids →
      finished = res.filter
        (fun r => r.positionOrder.isSome && decide (0 < r.positionOrder.getD 0)) →
      res ≠ [] →
      (AverageFinishPosition_calculate races results driver_id constructor_id season race_ids =
        .ok (if finished.isEmpty then none
             else some ((finished.map (fun r => ((r.positionOrder.getD 0 : ℚ)))).sum / finished.length))
          res.length finished.length (res.length - finished.length)
          (if finished.isEmpty then none else (finished.filterMap (fun r => r.positionOrder)).min?)
          (if finished.isEmpty then none else (finished.filterMap (fun r => r.positionOrder)).max?)) ∧
      (DNFRate_calculate races results driver_id constructor_id season race_ids =
        .ok (100 * (res.filter (fun r => startsNonDigit r.positionText)).length / res.length)
          res.length (res.filter (fun r => startsNonDigit r.positionText)).length
          (100 - 100 * (res.filter (fun r => startsNonDigit r.positionText)).length / res.length))) := by
  refine ⟨fun s => ⟨rfl, rfl⟩, ?_, ?_⟩
  · intro races results driver_id constructor_id season race_ids c
    have hsel := metricSelect_withPosition races results driver_id constructor_id season race_ids c
    constructor
    · simp only [AverageFinishPosition_calculate, hsel]
      rw [filter_withPosition_comm
            (metricSelectResults races results driver_id constructor_id season race_ids) c
            (fun r => r.positionOrder.isSome && decide (0 < r.positionOrder.getD 0))
            (fun r => rfl)]
      simp [isEmpty_map, List.map_map, Function.comp_def, List.filterMap_map,
        ResultRow.withPosition]
    · simp only [DNFRate_calculate, hsel]
      rw [filter_withPosition_comm
            (metricSelectResults races results driver_id constructor_id season race_ids) c
            (fun r => startsNonDigit r.positionText)
            (fun r => rfl)]
      simp [isEmpty_map, List.map_map, Function.comp_def, ResultRow.withPosition]
  · intro races results driver_id constructor_id season race_ids res finished hres hfin hne
    subst hres
    subst hfin
    have hempty : (metricSelectResults races results driver_id constructor_id season
        race_ids).isEmpty = false := by
      cases h : metricSelectResults races results driver_id constructor_id season race_ids with
      | nil => exact absurd h hne
      | cons a as => rfl
    constructor
    · simp only [AverageFinishPosition_calculate, hempty, Bool.false_eq_true, if_false]
    · simp only [DNFRate_calculate, hempty, Bool.false_eq_true, if_false]

/-- C5 witness: the characterisation applied at a concrete input (the DNF
row "R" is invariant under a position-cell rewrite, and the count
characterisation holds on a concrete one-row selection). -/
theorem C5_dnf_detection_witness :
    AverageFinishPosition_calculate [⟨5, 2020, 1⟩]
        (([⟨10, 5, 7, 3, Cell.int 15, "R", some 15, Cell.int 0, 4⟩] : List ResultRow).map
          (fun r => r.withPosition (Cell.str "Ret")))
        none none none none =
      AverageFinishPosition_calculate [⟨5, 2020, 1⟩]
        [⟨10, 5, 7, 3, Cell.int 15, "R", some 15, Cell.int 0, 4⟩]
        none none none none ∧
    DNFRate_calculate [⟨5, 2020, 1⟩]
        [⟨10, 5, 7, 3, Cell.str "\\N", "R", some 15, Cell.int 0, 4⟩]
        none none none none =
      .ok (100 * 1 / 1) 1 1 (100 - 100 * 1 / 1) := by
  constructor
  · exact (C5_dnf_detection_characterisation.2.1 ([⟨5, 2020, 1⟩] : List RaceRow)
      ([⟨10, 5, 7, 3, Cell.int 15, "R", some 15, Cell.int 0, 4⟩] : List ResultRow)
      none none none none (Cell.str "Ret")).1
  · have h := (C5_dnf_detection_characterisation.2.2 ([⟨5, 2020, 1⟩] : List RaceRow)
      ([⟨10, 5, 7, 3, Cell.str "\\N", "R", some 15, Cell.int 0, 4⟩] : List ResultRow)
      none none none none _ _ rfl rfl (by decide)).2
    rw [h]
    have hsel : (metricSelectResults ([⟨5, 2020, 1⟩] : List RaceRow)
        ([⟨10, 5, 7, 3, Cell.str "\\N", "R", some 15, Cell.int 0, 4⟩] : List ResultRow)
        none none none none).length = 1 := by decide
    have hfil : ((metricSelectResults ([⟨5, 2020, 1⟩] : List RaceRow)
        ([⟨10, 5, 7, 3, Cell.str "\\N", "R", some 15, Cell.int 0, 4⟩] : List ResultRow)
        none none none none).filter (fun r => startsNonDigit r.positionText)).length = 1 := by
      decide
    rw [hsel, hfil]
    norm_num

theorem filter_map_self_of_not_mem {κ β : Type} [DecidableEq κ]
    (K : List κ) (f : κ → β) (k : κ) (hk : k ∉ K) :
    (K.map (fun x => (x, f x))).filter (fun e => decide (e.1 = k)) = [] := by
  induction K with
  | nil => rfl
  | cons x xs ih =>
      simp only [List.map_cons, List.filter_cons]
      have hxk : x ≠ k := fun h => hk (h ▸ List.mem_cons_self x xs)
      rw [if_neg (by simpa using hxk)]
      exact ih (fun h => hk (List.mem_cons_of_mem _ h))

theorem filter_map_self_of_nodup {κ β : Type} [DecidableEq κ]
    (K : List κ) (hnd : K.Nodup) (f : κ → β) (k : κ) (hk : k ∈ K) :
    (K.map (fun x => (x, f x))).filter (fun e => decide (e.1 = k)) = [(k, f k)] := by
  induction K with
  | nil => cases hk
  | cons x xs ih =>
      simp only [List.map_cons, List.filter_cons]
      rcases List.mem_cons.mp hk with h | h
      · rw [h]
        rw [if_pos (by simp)]
        rw [filter_map_self_of_not_mem xs f x (List.nodup_cons.mp hnd).1]
      · have hxk : x ≠ k := by
          rintro rfl
          exact ((List.nodup_cons.mp hnd).1) h
        rw [if_neg (by simpa using hxk)]
        exact ih (List.nodup_cons.mp hnd).2 h

theorem mem_of_getLast?_eq_some {α : Type} {l : List α} {a : α}
    (h : l.getLast? = some a) : a ∈ l := by
  obtain ⟨hne, heq⟩ := List.mem_getLast?_eq_getLast (show a ∈ l.getLast? by simp [h])
  exact heq ▸ List.getLast_mem hne

theorem pairwise_le_getLast {α : Type} (le : α → α → Prop) (hrefl : ∀ a, le a a)
    (l : List α) (last : α) (hp : List.Pairwise le l) (hl : l.getLast? = some last) :
    ∀ r ∈ l, le r last := by
  induction l with
  | nil => cases hl
  | cons x xs ih =>
      cases xs with
      | nil =>
          simp only [List.getLast?_singleton, Option.some.injEq] at hl
          subst hl
          intro r hr
          rw [List.mem_singleton] at hr
          subst hr
          exact hrefl _
      | cons y ys =>
          rw [List.getLast?_cons_cons] at hl
          have hmem : last ∈ y :: ys := mem_of_getLast?_eq_some hl
          intro r hr
          rcases List.mem_cons.mp hr with h | h
          · subst h
            exact (List.pairwise_cons.mp hp).1 last hmem
          · exact ih (List.pairwise_cons.mp hp).2 hl r h

/-- C6 counterexample: in a (year 2019, constructor 7) group whose rows
occur in the standings table with round 3 (points 40) before round 1
(points 10), the derived championship position reports the
last-in-table-order row (points 10), not the greatest-round row
(points 40). -/
theorem C6_counterexample_last_by_occurrence :
    (get_constructor_championship_positions
        [⟨101, 3, 7, 40, 1, 2⟩, ⟨100, 1, 7, 10, 1, 1⟩]
        [⟨1, 2019, 1⟩, ⟨3, 2019, 3⟩] none).map
      (fun e => (e.1, e.2.map (fun r => r.standing.points))) =
      [((some 2019, 7), some 10)] ∧
    ((champRows [⟨101, 3, 7, 40, 1, 2⟩, ⟨100, 1, 7, 10, 1, 1⟩]
        [⟨1, 2019, 1⟩, ⟨3, 2019, 3⟩] none).filter
      (fun r => decide (champKey r = (some 2019, 7)))).map
        (fun r => (r.round, r.standing.points)) = [(some 3, 40), (some 1, 10)] ∧
    (10 : Int) ≠ 40 := by decide

/-- C6 amended: for every (year, constructor) group of the derived
championship-positions view, the reported standing is the LAST row of the
group in table-occurrence order; whenever the group rows occur in
ascending round order (as they do in round-ordered source data, and in the
spec example), that row is the one with the greatest round number. -/
theorem C6_standings_last_row (standings : List StandingRow) (races : List RaceRow)
    (season : Option Int) (k : Option Int × Int) (g : List StandingYearRow)
    (hg : g = (champRows standings races season).filter
        (fun r => decide (champKey r = k)))
    (hne : g ≠ []) :
    ∃ last : StandingYearRow, g.getLast? = some last ∧
      (get_constructor_championship_positions standings races season).filter
          (fun e => decide (e.1 = k)) = [(k, some last)] ∧
      (List.Pairwise (fun a b => a.round.getD 0 ≤ b.round.getD 0) g →
        ∀ r ∈ g, r.round.getD 0 ≤ last.round.getD 0) := by
  obtain ⟨r0, hr0⟩ := List.exists_mem_of_ne_nil g hne
  obtain ⟨last, hlast⟩ : ∃ last, g.getLast? = some last := by
    cases hgl : g.getLast? with
    | none => exact absurd (List.getLast?_eq_none_iff.mp hgl) hne
    | some a => exact ⟨a, rfl⟩
  refine ⟨last, hlast, ?_, ?_⟩
  · have hr0' := hr0
    rw [hg, List.mem_filter] at hr0'
    obtain ⟨hr0mem, hr0key⟩ := hr0'
    have hkmem : k ∈ (champRows standings races season).map champKey := by
      rw [List.mem_map]
      exact ⟨r0, hr0mem, (of_decide_eq_true hr0key).symm ▸ rfl⟩
    have hstne : (get_constructor_standings standings races season).isEmpty = false := by
      cases hst : get_constructor_standings standings races season with
      | nil =>
          exfalso
          have : champRows standings races season = [] := by
            simp [champRows, hst]
          rw [this] at hr0mem
          cases hr0mem
      | cons a as => rfl
    simp only [get_constructor_championship_positions, hstne, Bool.false_eq_true, if_false]
    have := filter_map_self_of_nodup
        ((champRows standings races season).map champKey).dedup
        (List.nodup_dedup _)
        (fun k => ((champRows standings races season).filter
          (fun r => decide (champKey r = k))).getLast?)
        k (List.mem_dedup.mpr hkmem)
    rw [this]
    simp only [← hg, hlast]
  · intro hpair
    exact @pairwise_le_getLast StandingYearRow
      (fun a b => a.round.getD 0 ≤ b.round.getD 0)
      (fun a => le_refl _) g last hpair hlast

/-- C6 witness: the amended last-row theorem applied at a concrete input
whose group rows are in ascending round order. -/
theorem C6_standings_last_row_witness :
    ∃ last : StandingYearRow,
      (((champRows [⟨100, 1, 7, 10, 1, 1⟩, ⟨101, 3, 7, 40, 1, 2⟩]
          [⟨1, 2019, 1⟩, ⟨3, 2019, 3⟩] none).filter
        (fun r => decide (champKey r = (some 2019, 7)))).getLast? = some last) ∧
      (get_constructor_championship_positions
          [⟨100, 1, 7, 10, 1, 1⟩, ⟨101, 3, 7, 40, 1, 2⟩]
          [⟨1, 2019, 1⟩, ⟨3, 2019, 3⟩] none).filter
          (fun e => decide (e.1 = (some 2019, 7))) = [((some 2019, 7), some last)] ∧
      (List.Pairwise (fun a b => a.round.getD 0 ≤ b.round.getD 0)
          ((champRows [⟨100, 1, 7, 10, 1, 1⟩, ⟨101, 3, 7, 40, 1, 2⟩]
            [⟨1, 2019, 1⟩, ⟨3, 2019, 3⟩] none).filter
            (fun r => decide (champKey r = (some 2019, 7)))) →
        ∀ r ∈ (champRows [⟨100, 1, 7, 10, 1, 1⟩, ⟨101, 3, 7, 40, 1, 2⟩]
            [⟨1, 2019, 1⟩, ⟨3, 2019, 3⟩] none).filter
            (fun r => decide (champKey r = (some 2019, 7))),
          r.round.getD 0 ≤ last.round.getD 0) :=
  C6_standings_last_row [⟨100, 1, 7, 10, 1, 1⟩, ⟨101, 3, 7, 40, 1, 2⟩]
    [⟨1, 2019, 1⟩, ⟨3, 2019, 3⟩] none (some 2019, 7) _ rfl (by decide)

theorem filter_eq_nil_of_all_false {β : Type} (l : List β) (p : β → Bool)
    (h : ∀ x ∈ l, p x = false) : l.filter p = [] := by
  induction l with
  | nil => rfl
  | cons x xs ih =>
      rw [List.filter_cons, if_neg (by simp [h x (List.mem_cons_self x xs)])]
      exact ih (fun y hy => h y (List.mem_cons_of_mem _ hy))

theorem filter_map_eq_singleton_of_unique {κ β : Type} [DecidableEq κ]
    (K : List κ) (hnd : K.Nodup) (f : κ → β) (p : β → Bool) (k : κ)
    (hk : k ∈ K) (hpk : p (f k) = true)
    (huniq : ∀ x ∈ K, p (f x) = true → x = k) :
    (K.map f).filter p = [f k] := by
  induction K with
  | nil => cases hk
  | cons x xs ih =>
      simp only [List.map_cons, List.filter_cons]
      by_cases hpx : p (f x) = true
      · have hxk : x = k := huniq x (List.mem_cons_self x xs) hpx
        rw [if_pos hpx]
        have hknotin : k ∉ xs := hxk ▸ (List.nodup_cons.mp hnd).1
        have heq : xs.filter (p ∘ f) = [] := by
          apply filter_eq_nil_of_all_false
          intro y hy
          cases hpy : p (f y) with
          | false => exact hpy
          | true => exact absurd ((huniq y (List.mem_cons_of_mem _ hy) hpy) ▸ hy) hknotin
        have hnil : (xs.map f).filter p = [] := by
          rw [List.filter_map, heq]
          rfl
        rw [hnil, hxk]
      · have hxk : x ≠ k := fun h => hpx (h ▸ hpk)
        have hkxs : k ∈ xs := by
          rcases List.mem_cons.mp hk with h | h
          · exact absurd h.symm hxk
          · exact h
        rw [if_neg hpx]
        exact ih (List.nodup_cons.mp hnd).2 hkxs
          (fun y hy hpy => huniq y (List.mem_cons_of_mem _ hy) hpy)

/-- C8: in every race where a constructor enters exactly two cars that are
classified 1st and 2nd (the constructor-results view has exactly those two
rows for the (race, constructor) pair, with a present year and round), the
constructor-race-wins view contains exactly one row for that pair, with
best_position 1, worst_position 2, drivers_count 2, and the two cars'
points summed — the aggregation is per (race, constructor) group, not per
row. -/
theorem C8_constructor_joint_aggregation (races : List RaceRow)
    (results : List ResultRow) (constructors : List ConstructorRow)
    (season constructor_id : Option Int) (rid cid : Int) (t1 t2 : CResultRow)
    (hg : (get_constructor_results races results constructors season
        constructor_id).filter
        (fun t => t.raceId == rid && t.constructorId == cid) = [t1, t2])
    (h1 : t1.position = some 1) (h2 : t2.position = some 2)
    (hyr : t1.year = t2.year) (hrd : t1.round = t2.round)
    (hysome : t1.year.isSome = true) (hrsome : t1.round.isSome = true) :
    (get_constructor_race_wins races results constructors season
        constructor_id).filter
      (fun a => a.raceId == rid && a.constructorId == cid) =
      [⟨rid, cid, t1.year, t1.round, some 1, some 2, 2, t1.points + t2.points⟩] := by
  have ht1mem : t1 ∈ (get_constructor_results races results constructors season
      constructor_id).filter (fun t => t.raceId == rid && t.constructorId == cid) := by
    rw [hg]; exact List.mem_cons_self _ _
  have ht2mem : t2 ∈ (get_constructor_results races results constructors season
      constructor_id).filter (fun t => t.raceId == rid && t.constructorId == cid) := by
    rw [hg]; exact List.mem_cons_of_mem _ (List.mem_cons_self _ _)
  have ht1 := List.mem_filter.mp ht1mem
  have ht2 := List.mem_filter.mp ht2mem
  have ht1' : t1.raceId = rid ∧ t1.constructorId = cid := by
    have := ht1.2; simp only [Bool.and_eq_true, beq_iff_eq] at this; exact this
  have ht2' : t2.raceId = rid ∧ t2.constructorId = cid := by
    have := ht2.2; simp only [Bool.and_eq_true, beq_iff_eq] at this; exact this
  have ht2y : t2.year.isSome = true := by rw [← hyr]; exact hysome
  have ht2rd : t2.round.isSome = true := by rw [← hrd]; exact hrsome
  -- the two rows survive the null-group-key drop and are exactly the
  -- (rid, cid) rows there as well
  have hrows : ((get_constructor_results races results constructors season
      constructor_id).filter (fun r => r.year.isSome && r.round.isSome)).filter
      (fun t => t.raceId == rid && t.constructorId == cid) = [t1, t2] := by
    rw [List.filter_filter, ← hg]
    apply List.filter_congr
    intro x hx
    by_cases hra : (x.raceId == rid) = true
    · by_cases hcb : (x.constructorId == cid) = true
      · have hxpred : (x.raceId == rid && x.constructorId == cid) = true := by
          simp [hra, hcb]
        have hxin : x ∈ (get_constructor_results races results constructors season
            constructor_id).filter
            (fun t => t.raceId == rid && t.constructorId == cid) :=
          List.mem_filter.mpr ⟨hx, hxpred⟩
        rw [hg] at hxin
        have hx12 : x = t1 ∨ x = t2 := by
          rcases List.mem_cons.mp hxin with h | h
          · exact Or.inl h
          · exact Or.inr (by simpa using h)
        have hxy : x.year.isSome = true := by
          rcases hx12 with rfl | rfl
          · exact hysome
          · exact ht2y
        have hxr : x.round.isSome = true := by
          rcases hx12 with rfl | rfl
          · exact hrsome
          · exact ht2rd
        simp [hra, hcb, hxy, hxr]
      · simp [hra, Bool.eq_false_iff.mpr hcb]
    · simp [Bool.eq_false_iff.mpr hra]
  have hmemrows1 : t1 ∈ (get_constructor_results races results constructors season
      constructor_id).filter (fun r => r.year.isSome && r.round.isSome) :=
    List.mem_filter.mpr ⟨ht1.1, by simp [hysome, hrsome]⟩
  -- the (rid, cid, year, round) group of the grouped view is [t1, t2]
  have hgroup : ((get_constructor_results races results constructors season
      constructor_id).filter (fun r => r.year.isSome && r.round.isSome)).filter
      (fun r => decide (cwKey r = (rid, cid, t1.year, t1.round))) = [t1, t2] := by
    rw [← hrows]
    apply List.filter_congr
    intro x hx
    by_cases hxk : cwKey x = (rid, cid, t1.year, t1.round)
    · have hx1 : x.raceId = rid := congrArg (fun t => t.1) hxk
      have hx2 : x.constructorId = cid := congrArg (fun t => t.2.1) hxk
      simp [hxk, hx1, hx2]
    · have hnp : ¬ (x.raceId == rid && x.constructorId == cid) = true := by
        intro hpred
        apply hxk
        have hxin : x ∈ ((get_constructor_results races results constructors season
            constructor_id).filter (fun r => r.year.isSome && r.round.isSome)).filter
            (fun t => t.raceId == rid && t.constructorId == cid) :=
          List.mem_filter.mpr ⟨hx, hpred⟩
        rw [hrows] at hxin
        rcases List.mem_cons.mp hxin with h | h
        · rw [h]; simp only [cwKey]; rw [ht1'.1, ht1'.2]
        · have hx2' : x = t2 := by simpa using h
          rw [hx2']; simp only [cwKey]; rw [ht2'.1, ht2'.2, ← hyr, ← hrd]
      simp [hxk, Bool.eq_false_iff.mpr hnp]
  -- aggregation of that group
  have hagg : aggGroup ((get_constructor_results races results constructors season
      constructor_id).filter (fun r => r.year.isSome && r.round.isSome))
      (rid, cid, t1.year, t1.round) =
      ⟨rid, cid, t1.year, t1.round, some 1, some 2, 2, t1.points + t2.points⟩ := by
    simp only [aggGroup, hgroup]
    simp [h1, h2]
  have hkmem : (rid, cid, t1.year, t1.round) ∈
      ((get_constructor_results races results constructors season
        constructor_id).filter (fun r => r.year.isSome && r.round.isSome)).map cwKey := by
    rw [List.mem_map]
    refine ⟨t1, hmemrows1, ?_⟩
    simp only [cwKey]
    rw [ht1'.1, ht1'.2]
  -- uniqueness of the group key among the deduplicated keys
  have huniq : ∀ x ∈ (((get_constructor_results races results constructors season
      constructor_id).filter (fun r => r.year.isSome && r.round.isSome)).map cwKey).dedup,
      ((fun a => (a.raceId == rid && a.constructorId == cid) &&
          (a.best_position == some 1 && a.worst_position == some 2 &&
            a.drivers_count == 2))
        (aggGroup ((get_constructor_results races results constructors season
          constructor_id).filter (fun r => r.year.isSome && r.round.isSome)) x)) = true →
      x = (rid, cid, t1.year, t1.round) := by
    intro x hx hpx
    have hx' := List.mem_dedup.mp hx
    obtain ⟨r, hrmem, hrkey⟩ := List.mem_map.mp hx'
    simp only [Bool.and_eq_true, beq_iff_eq] at hpx
    have hxr : x.1 = rid := hpx.1.1
    have hxc : x.2.1 = cid := hpx.1.2
    have hrpred : (r.raceId == rid && r.constructorId == cid) = true := by
      have e1 : r.raceId = x.1 := by rw [← hrkey]; simp [cwKey]
      have e2 : r.constructorId = x.2.1 := by rw [← hrkey]; simp [cwKey]
      simp [e1, e2, hxr, hxc]
    have hrin : r ∈ ((get_constructor_results races results constructors season
        constructor_id).filter (fun r => r.year.isSome && r.round.isSome)).filter
        (fun t => t.raceId == rid && t.constructorId == cid) :=
      List.mem_filter.mpr ⟨hrmem, hrpred⟩
    rw [hrows] at hrin
    rcases List.mem_cons.mp hrin with h | h
    · rw [← hrkey, h]; simp only [cwKey]; rw [ht1'.1, ht1'.2]
    · have hx2' : r = t2 := by simpa using h
      rw [← hrkey, hx2']; simp only [cwKey]
      rw [ht2'.1, ht2'.2, ← hyr, ← hrd]
  have hwins := filter_map_eq_singleton_of_unique
    (((get_constructor_results races results constructors season
      constructor_id).filter (fun r => r.year.isSome && r.round.isSome)).map cwKey).dedup
    (List.nodup_dedup _)
    (fun k => aggGroup ((get_constructor_results races results constructors season
      constructor_id).filter (fun r => r.year.isSome && r.round.isSome)) k)
    (fun a => (a.raceId == rid && a.constructorId == cid) &&
      (a.best_position == some 1 && a.worst_position == some 2 &&
        a.drivers_count == 2))
    (rid, cid, t1.year, t1.round) (List.mem_dedup.mpr hkmem)
    (by simp [hagg])
    huniq
  simp only [get_constructor_race_wins]
  rw [List.filter_filter]
  rw [hwins]
  simp [hagg]

/-- C8 witness: the joint-aggregation theorem applied at a concrete input
with two cars of constructor 3 classified 1st and 2nd. -/
theorem C8_constructor_joint_aggregation_witness :
    (get_constructor_race_wins [⟨1, 2020, 1⟩]
        [⟨10, 1, 7, 3, Cell.int 1, "1", some 1, Cell.int 25, 1⟩,
         ⟨11, 1, 8, 3, Cell.int 2, "2", some 2, Cell.int 18, 1⟩]
        [⟨3, "X"⟩] none none).filter
      (fun a => a.raceId == 1 && a.constructorId == 3) =
      [⟨1, 3, (⟨1, 7, 3, some 2020, some 1, some "X", some 1, 25⟩ : CResultRow).year,
        (⟨1, 7, 3, some 2020, some 1, some "X", some 1, 25⟩ : CResultRow).round,
        some 1, some 2, 2,
        (⟨1, 7, 3, some 2020, some 1, some "X", some 1, 25⟩ : CResultRow).points +
        (⟨1, 8, 3, some 2020, some 1, some "X", some 2, 18⟩ : CResultRow).points⟩] :=
  C8_constructor_joint_aggregation [⟨1, 2020, 1⟩]
    [⟨10, 1, 7, 3, Cell.int 1, "1", some 1, Cell.int 25, 1⟩,
     ⟨11, 1, 8, 3, Cell.int 2, "2", some 2, Cell.int 18, 1⟩]
    [⟨3, "X"⟩] none none 1 3
    ⟨1, 7, 3, some 2020, some 1, some "X", some 1, 25⟩
    ⟨1, 8, 3, some 2020, some 1, some "X", some 2, 18⟩
    (by decide) (by decide) (by decide) (by decide) (by decide) (by decide) (by decide)

theorem bulkStep_foldl_spec {α : Type} (reg : Registry α) (names : List String)
    (acc : List α × List String) :
    names.foldl (bulkStepF reg) acc =
      (acc.1 ++ bulkSuccesses reg names, acc.2 ++ bulkErrors reg names) := by
  induction names generalizing acc with
  | nil => simp [bulkSuccesses, bulkErrors]
  | cons n ns ih =>
      rw [List.foldl_cons, ih]
      cases hfind : reg.find? (fun e => e.1 == n) with
      | none =>
          simp [bulkStepF, hfind, bulkSuccesses, bulkErrors, List.filterMap_cons]
      | some e =>
          cases e with
          | mk nm out =>
              cases out with
              | ok r =>
                  simp [bulkStepF, hfind, bulkSuccesses, bulkErrors,
                    List.filterMap_cons]
              | error msg =>
                  simp [bulkStepF, hfind, bulkSuccesses, bulkErrors,
                    List.filterMap_cons]

/-- C7 counterexample: requesting ["m", "nope"] against a registry where
only "m" exists and succeeds returns an overall success whose payload is
just the list [42] — the per-metric error for "nope" was collected by the
loop but does not appear in the successful response, contrary to the
claim that the response carries the per-metric errors alongside the
results. -/
theorem C7_counterexample_errors_dropped :
    bulkStep [("m", Except.ok (42 : Int))] ["m", "nope"] =
      ([42], ["Metric 'nope' not found"]) ∧
    bulkCalculate [("m", Except.ok (42 : Int))] ["m", "nope"] =
      Except.ok [42] := by
  constructor
  · rfl
  · rfl

/-- C7 amended: the loop collects the successful responses and the
per-metric error messages in request order; when at least one metric
succeeds the call succeeds as a whole, returning exactly the successful
responses (the collected per-metric errors are logged but omitted from
the response); only when every requested metric fails (and at least one
error was recorded) does the call fail, with the full error list. -/
theorem C7_partial_bulk_failure {α : Type} (reg : Registry α)
    (metric_names : List String) :
    bulkStep reg metric_names =
      (bulkSuccesses reg metric_names, bulkErrors reg metric_names) ∧
    (bulkSuccesses reg metric_names ≠ [] →
      bulkCalculate reg metric_names = .ok (bulkSuccesses reg metric_names)) ∧
    (bulkSuccesses reg metric_names = [] → bulkErrors reg metric_names ≠ [] →
      bulkCalculate reg metric_names = .error (bulkErrors reg metric_names)) := by
  have hstep : bulkStep reg metric_names =
      (bulkSuccesses reg metric_names, bulkErrors reg metric_names) := by
    rw [bulkStep, bulkStep_foldl_spec]
    simp
  refine ⟨hstep, ?_, ?_⟩
  · intro hsucc
    have hne : (bulkSuccesses reg metric_names).isEmpty = false := by
      cases h : bulkSuccesses reg metric_names with
      | nil => exact absurd h hsucc
      | cons a as => rfl
    simp [bulkCalculate, hstep, hne]
  · intro hsucc herr
    have he : (bulkErrors reg metric_names).isEmpty = false := by
      cases h : bulkErrors reg metric_names with
      | nil => exact absurd h herr
      | cons a as => rfl
    simp [bulkCalculate, hstep, hsucc, he]

/-- C7 witness: the amended bulk theorem applied at a concrete registry
and request. -/
theorem C7_partial_bulk_failure_witness :
    bulkCalculate [("m", Except.ok (42 : Int))] ["m", "nope"] =
      .ok (bulkSuccesses [("m", Except.ok (42 : Int))] ["m", "nope"]) :=
  (C7_partial_bulk_failure [("m", Except.ok (42 : Int))] ["m", "nope"]).2.1
    (by decide)

/-- C10: zero-valued parameters are treated as absent.  Every truthiness
guard (`if season:`, `if driver_id:`, `if constructor_id:`,
`if not request.constructor_id:`) sees 0 as falsy, so passing 0 for
driver_id, constructor_id or season behaves exactly like omitting that
parameter in get_races, get_driver_results_with_names and the driver race
metric selection, and the constructor-metric endpoint rejects
constructor_id=0 with the same 400 error as an absent constructor id. -/
theorem C10_zero_params_treated_as_absent :
    (∀ (races : List RaceRow), get_races races (some 0) = get_races races none) ∧
    (∀ (races : List RaceRow) (results : List ResultRow) (drivers : List DriverRow)
        (season : Option Int) (race_ids : Option (List Int)),
      get_driver_results_with_names races results drivers (some 0) season race_ids =
        get_driver_results_with_names races results drivers none season race_ids) ∧
    (∀ (races : List RaceRow) (results : List ResultRow) (drivers : List DriverRow)
        (driver_id : Option Int) (race_ids : Option (List Int)),
      get_driver_results_with_names races results drivers driver_id (some 0) race_ids =
        get_driver_results_with_names races results drivers driver_id none race_ids) ∧
    (∀ (races : List RaceRow) (results : List ResultRow)
        (constructor_id season : Option Int) (race_ids : Option (List Int)),
      metricSelectResults races results (some 0) constructor_id season race_ids =
        metricSelectResults races results none constructor_id season race_ids) ∧
    (∀ (races : List RaceRow) (results : List ResultRow)
        (driver_id season : Option Int) (race_ids : Option (List Int)),
      metricSelectResults races results driver_id (some 0) season race_ids =
        metricSelectResults races results driver_id none season race_ids) ∧
    (∀ (races : List RaceRow) (results : List ResultRow)
        (driver_id constructor_id : Option Int) (race_ids : Option (List Int)),
      metricSelectResults races results driver_id constructor_id (some 0) race_ids =
        metricSelectResults races results driver_id constructor_id none race_ids) ∧
    (∀ (α : Type) (reg : Registry α) (metric_name : String),
      calculate_constructor_metric reg metric_name (some 0) =
        calculate_constructor_metric reg metric_name none) :=
  ⟨fun _ => rfl, fun _ _ _ _ _ => rfl, fun _ _ _ _ _ => rfl, fun _ _ _ _ _ => rfl,
   fun _ _ _ _ _ => rfl, fun _ _ _ _ _ => rfl, fun _ _ _ => rfl⟩

set_option maxRecDepth 4000 in
theorem sha256hex_abc_vector : sha256hex "abc" =
    "ba7816bf8f01cfea414140de5dae2223b00361a396177a9cb410ff61f20015ad" := by rfl

theorem find?_filter_ne_none (l : CacheStore) (k : String) :
    (l.filter (fun e => e.1 != k)).find? (fun e => e.1 == k) = Option.none := by
  rw [List.find?_eq_none]
  intro x hx
  have := (List.mem_filter.mp hx).2
  simpa using this

theorem filter_eq_of_filter_ne (l : CacheStore) (k : String) :
    ((l.filter (fun e => e.1 != k)).filter (fun e => e.1 == k)) = [] := by
  apply filter_eq_nil_of_all_false
  intro x hx
  have := (List.mem_filter.mp hx).2
  cases h : (x.1 == k) with
  | false => rfl
  | true => exact absurd (beq_iff_eq.mp h) (by simpa using this)

theorem mget_found (ttl : Int) (store : CacheStore) (m : String) (p : Params)
    (now : Int) (k0 : String) (e : CacheEntry)
    (hfind : store.find? (fun x => x.1 == generate_key m p) = some (k0, e)) :
    MetricCache.get true ttl store m p now =
      if ttl < now - e.createdAt then
        (Option.none, store.filter (fun x => x.1 != generate_key m p))
      else (some e.result, store) := by
  simp only [MetricCache.get, Bool.not_true, Bool.false_eq_true, if_false, hfind]

/-- C4: TTL expiry.  For a store holding an entry created at time t0 under
the fingerprint of (metric name, params): a get at time t with
t - t0 ≤ ttl returns the stored result and leaves the store unchanged; a
get at time t with t - t0 > ttl returns absent and removes the entry from
the store as a side effect of that same query. -/
theorem C4_ttl_expiry (ttl : Int) (store : CacheStore) (m : String) (p : Params)
    (k0 : String) (t0 t : Int) (r : PyVal) (nm rt : String)
    (hfind : store.find? (fun e => e.1 == generate_key m p) =
      some (k0, ⟨t0, nm, r, rt⟩)) :
    (t - t0 ≤ ttl →
      MetricCache.get true ttl store m p t = (some r, store)) ∧
    (ttl < t - t0 →
      MetricCache.get true ttl store m p t =
        (Option.none, store.filter (fun e => e.1 != generate_key m p)) ∧
      (store.filter (fun e => e.1 != generate_key m p)).find?
        (fun e => e.1 == generate_key m p) = Option.none) := by
  constructor
  · intro hle
    simp only [MetricCache.get, Bool.not_true, Bool.false_eq_true, if_false, hfind]
    rw [if_neg (by omega)]
  · intro hgt
    constructor
    · simp only [MetricCache.get, Bool.not_true, Bool.false_eq_true, if_false, hfind]
      rw [if_pos (by omega)]
    · exact find?_filter_ne_none store (generate_key m p)

set_option maxRecDepth 4000 in
/-- C4 witness: the TTL theorem applied to a concrete store holding one
entry under the computed fingerprint of ("m", {"season": 2019}), with
CACHE_TTL = 3600, written at time 0 and queried at times 3600 and 3601. -/
theorem C4_ttl_expiry_witness :
    (MetricCache.get true CACHE_TTL
        [(generate_key "m" [("season", PyVal.int 2019)],
          ⟨0, "m", PyVal.int 5, "MetricResult"⟩)]
        "m" [("season", PyVal.int 2019)] 3600 =
      (some (PyVal.int 5),
        [(generate_key "m" [("season", PyVal.int 2019)],
          ⟨0, "m", PyVal.int 5, "MetricResult"⟩)])) ∧
    (MetricCache.get true CACHE_TTL
        [(generate_key "m" [("season", PyVal.int 2019)],
          ⟨0, "m", PyVal.int 5, "MetricResult"⟩)]
        "m" [("season", PyVal.int 2019)] 3601 =
      (Option.none,
        ([(generate_key "m" [("season", PyVal.int 2019)],
          (⟨0, "m", PyVal.int 5, "MetricResult"⟩ : CacheEntry))] : CacheStore).filter
          (fun e => e.1 != generate_key "m" [("season", PyVal.int 2019)]))) := by
  constructor
  · exact (C4_ttl_expiry CACHE_TTL _ "m" [("season", PyVal.int 2019)]
      (generate_key "m" [("season", PyVal.int 2019)]) 0 3600
      (PyVal.int 5) "m" "MetricResult"
      (List.find?_cons_of_pos _ (beq_self_eq_true _))).1 (by decide)
  · exact ((C4_ttl_expiry CACHE_TTL _ "m" [("season", PyVal.int 2019)]
      (generate_key "m" [("season", PyVal.int 2019)]) 0 3601
      (PyVal.int 5) "m" "MetricResult"
      (List.find?_cons_of_pos _ (beq_self_eq_true _))).2 (by decide)).1

/-- C9: cache round-trip.  A set followed by a get under the same metric
name and parameters, within the TTL, returns exactly the stored result
(the modelled result domain round-trips losslessly through json); and set
overwrites: after a set, the store holds exactly one entry under that
fingerprint, the new one. -/
theorem C9_cache_round_trip (ttl : Int) (store : CacheStore) (m : String)
    (p : Params) (r : PyVal) (rt : String) (now t : Int)
    (h : t - now ≤ ttl) :
    MetricCache.get true ttl (MetricCache.set true store m p r rt now) m p t =
      (some r, MetricCache.set true store m p r rt now) ∧
    (MetricCache.set true store m p r rt now).filter
        (fun e => e.1 == generate_key m p) =
      [(generate_key m p, ⟨now, m, r, rt⟩)] := by
  have hset : MetricCache.set true store m p r rt now =
      (store.filter (fun e => e.1 != generate_key m p)) ++
        [(generate_key m p, ⟨now, m, r, rt⟩)] := by
    simp [MetricCache.set]
  constructor
  · have hfind : (MetricCache.set true store m p r rt now).find?
        (fun e => e.1 == generate_key m p) =
        some (generate_key m p, ⟨now, m, r, rt⟩) := by
      rw [hset, List.find?_append, find?_filter_ne_none, Option.none_or]
      exact List.find?_cons_of_pos _ (beq_self_eq_true _)
    rw [mget_found ttl _ m p t _ _ hfind, if_neg (by simp; omega)]
  · rw [hset, List.filter_append, filter_eq_of_filter_ne, List.nil_append,
      List.filter_cons, if_pos (beq_self_eq_true _), List.filter_nil]

set_option maxRecDepth 4000 in
/-- C9 witness: the round-trip theorem applied at a concrete store,
metric and parameter mapping with the configured CACHE_TTL. -/
theorem C9_cache_round_trip_witness :
    MetricCache.get true CACHE_TTL
        (MetricCache.set true [] "m" [("season", PyVal.int 2019)]
          (PyVal.int 5) "MetricResult" 0)
        "m" [("season", PyVal.int 2019)] 1 =
      (some (PyVal.int 5),
        MetricCache.set true [] "m" [("season", PyVal.int 2019)]
          (PyVal.int 5) "MetricResult" 0) :=
  (C9_cache_round_trip CACHE_TTL [] "m" [("season", PyVal.int 2019)]
    (PyVal.int 5) "MetricResult" 0 1 (by decide)).1

theorem insertStable_perm (le : α → α → Bool) (x : α) (l : List α) :
    (insertStable le x l).Perm (x :: l) := by
  induction l with
  | nil => exact List.Perm.refl _
  | cons y ys ih =>
      simp only [insertStable]
      by_cases h : le y x = true
      · rw [if_pos h]
        exact (ih.cons y).trans (List.Perm.swap x y ys)
      · rw [if_neg h]

theorem sortBy_perm (le : α → α → Bool) (l : List α) : (sortBy le l).Perm l := by
  induction l with
  | nil => exact List.Perm.refl _
  | cons y ys ih =>
      have : sortBy le (y :: ys) = insertStable le y (sortBy le ys) := rfl
      rw [this]
      exact (insertStable_perm le y (sortBy le ys)).trans (ih.cons y)

theorem insertStable_pairwise (le : α → α → Bool)
    (htot : ∀ a b, le a b = true ∨ le b a = true)
    (htrans : ∀ a b c, le a b = true → le b c = true → le a c = true)
    (x : α) (l : List α) (hs : List.Pairwise (fun a b => le a b = true) l) :
    List.Pairwise (fun a b => le a b = true) (insertStable le x l) := by
  induction l with
  | nil => simp [insertStable]
  | cons y ys ih =>
      simp only [insertStable]
      rcases List.pairwise_cons.mp hs with ⟨hy, hys⟩
      by_cases h : le y x = true
      · rw [if_pos h]
        refine List.pairwise_cons.mpr ⟨?_, ih hys⟩
        intro z hz
        rw [mem_insertStable] at hz
        rcases hz with rfl | hz
        · exact h
        · exact hy z hz
      · rw [if_neg h]
        have hxy : le x y = true := (htot y x).resolve_left h
        refine List.pairwise_cons.mpr ⟨?_, hs⟩
        intro z hz
        rcases List.mem_cons.mp hz with rfl | hz
        · exact hxy
        · exact htrans x y z hxy (hy z hz)

theorem sortBy_pairwise (le : α → α → Bool)
    (htot : ∀ a b, le a b = true ∨ le b a = true)
    (htrans : ∀ a b c, le a b = true → le b c = true → le a c = true)
    (l : List α) :
    List.Pairwise (fun a b => le a b = true) (sortBy le l) := by
  induction l with
  | nil => exact List.Pairwise.nil
  | cons y ys ih => exact insertStable_pairwise le htot htrans y (sortBy le ys) ih

theorem sortParams_eq_of_perm (p1 p2 : List (String × PyVal)) (hperm : p1.Perm p2)
    (hnd : (p1.map Prod.fst).Nodup) : sortParams p1 = sortParams p2 := by
  have htot : ∀ a b : String × PyVal,
      decide (a.1 ≤ b.1) = true ∨ decide (b.1 ≤ a.1) = true := by
    intro a b
    rcases le_total a.1 b.1 with h | h
    · exact Or.inl (decide_eq_true h)
    · exact Or.inr (decide_eq_true h)
  have htrans : ∀ a b c : String × PyVal, decide (a.1 ≤ b.1) = true →
      decide (b.1 ≤ c.1) = true → decide (a.1 ≤ c.1) = true := by
    intro a b c h1 h2
    exact decide_eq_true (le_trans (of_decide_eq_true h1) (of_decide_eq_true h2))
  have hs1 := sortBy_pairwise _ htot htrans p1
  have hs2 := sortBy_pairwise _ htot htrans p2
  have hperm12 : (sortParams p1).Perm (sortParams p2) :=
    ((sortBy_perm _ p1).trans hperm).trans (sortBy_perm _ p2).symm
  have hnd1 : ((sortParams p1).map Prod.fst).Nodup := by
    have := (sortBy_perm (fun a b => decide (a.1 ≤ b.1)) p1).map Prod.fst
    exact this.nodup_iff.mpr hnd
  have hlt1 : List.Pairwise (fun a b : String × PyVal => a.1 < b.1) (sortParams p1) := by
    have hne := (List.pairwise_map.mp hnd1)
    have hle : List.Pairwise
        (fun a b : String × PyVal => a.1 ≤ b.1) (sortParams p1) :=
      hs1.imp (fun h => of_decide_eq_true h)
    exact (hle.and hne).imp (fun h => lt_of_le_of_ne h.1 h.2)
  have hnd2 : ((sortParams p2).map Prod.fst).Nodup := by
    have hmap := hperm12.map Prod.fst
    exact hmap.nodup_iff.mp hnd1
  have hlt2 : List.Pairwise (fun a b : String × PyVal => a.1 < b.1) (sortParams p2) := by
    have hne := (List.pairwise_map.mp hnd2)
    have hle : List.Pairwise
        (fun a b : String × PyVal => a.1 ≤ b.1) (sortParams p2) :=
      hs2.imp (fun h => of_decide_eq_true h)
    exact (hle.and hne).imp (fun h => lt_of_le_of_ne h.1 h.2)
  exact List.eq_of_perm_of_sorted hperm12 hlt1 hlt2

theorem generate_key_eq_of_perm (m : String) (p1 p2 : Params)
    (hperm : List.Perm p1 p2)
    (hnd : List.Nodup (List.map Prod.fst p1)) :
    generate_key m p1 = generate_key m p2 := by
  have : serParams p1 = serParams p2 := by
    unfold serParams
    rw [sortParams_eq_of_perm p1 p2 hperm hnd]
  unfold generate_key combinedKey
  rw [this]

theorem digit_char_facts (d : Nat) (hd : d < 10) :
    (Char.ofNat (48 + d)).isDigit = true ∧ (Char.ofNat (48 + d)).toNat = 48 + d := by
  interval_cases d <;> exact ⟨by decide, by decide⟩

theorem natDigitsRevGo_all_digits (fuel n : Nat) :
    ∀ c ∈ natDigitsRevGo fuel n, c.isDigit = true := by
  induction fuel generalizing n with
  | zero =>
      intro c hc
      cases n <;> simp [natDigitsRevGo] at hc
  | succ fuel ih =>
      intro c hc
      cases n with
      | zero => simp [natDigitsRevGo] at hc
      | succ m =>
          simp only [natDigitsRevGo, List.mem_cons] at hc
          rcases hc with rfl | hc
          · exact (digit_char_facts ((m + 1) % 10) (Nat.mod_lt _ (by omega))).1
          · exact ih _ c hc

theorem digitsVal_append (l1 l2 : List Char) :
    digitsVal (l1 ++ l2) =
      l2.foldl (fun a c => a * 10 + (c.toNat - 48)) (digitsVal l1) := by
  simp [digitsVal, List.foldl_append]

theorem natDigitsRevGo_val (fuel n : Nat) (hn : n ≤ fuel) (hpos : 0 < n) :
    digitsVal (natDigitsRevGo fuel n).reverse = n := by
  induction fuel generalizing n with
  | zero => omega
  | succ fuel ih =>
      cases n with
      | zero => omega
      | succ m =>
          simp only [natDigitsRevGo, List.reverse_cons]
          rw [digitsVal_append]
          have hq : (m + 1) / 10 ≤ fuel := by
            have := Nat.div_lt_self (Nat.succ_pos m) (show 1 < 10 by omega)
            omega
          have hchar := digit_char_facts ((m + 1) % 10) (Nat.mod_lt _ (by omega))
          by_cases hz : (m + 1) / 10 = 0
          · rw [hz]
            simp [natDigitsRevGo, digitsVal, hchar.2]
            omega
          · rw [ih _ hq (by omega)]
            simp [hchar.2]
            omega

theorem natDigitsRevGo_ne_nil (fuel n : Nat) (hn : n ≤ fuel) (hpos : 0 < n) :
    natDigitsRevGo fuel n ≠ [] := by
  cases fuel with
  | zero => omega
  | succ fuel =>
      cases n with
      | zero => omega
      | succ m => simp [natDigitsRevGo]

theorem natStr_all_digits (n : Nat) : ∀ c ∈ (natStr n).data, c.isDigit = true := by
  intro c hc
  unfold natStr at hc
  by_cases h : n = 0
  · rw [if_pos h] at hc
    simp at hc
    subst hc
    decide
  · rw [if_neg h] at hc
    simp only [String.data] at hc
    rw [List.mem_reverse] at hc
    exact natDigitsRevGo_all_digits n n c hc

theorem natStr_val (n : Nat) : digitsVal (natStr n).data = n := by
  unfold natStr
  by_cases h : n = 0
  · rw [if_pos h, h]
    decide
  · rw [if_neg h]
    exact natDigitsRevGo_val n n (le_refl n) (by omega)

theorem natStr_ne_nil (n : Nat) : (natStr n).data ≠ [] := by
  unfold natStr
  by_cases h : n = 0
  · rw [if_pos h]; decide
  · rw [if_neg h]
    simp only [String.data]
    intro hcon
    rw [List.reverse_eq_nil_iff] at hcon
    exact natDigitsRevGo_ne_nil n n (le_refl n) (by omega) hcon

theorem takeWhile_append_all (p : Char → Bool) (l1 l2 : List Char)
    (h1 : ∀ c ∈ l1, p c = true)
    (h2 : match l2 with | [] => True | c :: _ => p c = false) :
    (l1 ++ l2).takeWhile p = l1 ∧ (l1 ++ l2).dropWhile p = l2 := by
  induction l1 with
  | nil =>
      simp only [List.nil_append]
      cases l2 with
      | nil => exact ⟨rfl, rfl⟩
      | cons c cs =>
          simp only at h2
          constructor
          · simp [List.takeWhile_cons, h2]
          · simp [List.dropWhile_cons, h2]
  | cons a l1 ih =>
      have ha : p a = true := h1 a (List.mem_cons_self a l1)
      have := ih (fun c hc => h1 c (List.mem_cons_of_mem _ hc))
      simp only [List.cons_append, List.takeWhile_cons, List.dropWhile_cons, ha,
        if_true]
      exact ⟨by rw [this.1], by rw [this.2]⟩

theorem parseNat_roundtrip (n : Nat) (rest : List Char)
    (hrest : match rest with | [] => True | c :: _ => c.isDigit = false) :
    parseNat ((natStr n).data ++ rest) = some (n, rest) := by
  obtain ⟨ht, hd⟩ := takeWhile_append_all (fun c => c.isDigit) (natStr n).data rest
    (natStr_all_digits n) hrest
  have hne : ((natStr n).data).isEmpty = false := by
    cases h : (natStr n).data with
    | nil => exact absurd h (natStr_ne_nil n)
    | cons a as => rfl
  simp only [parseNat, ht, hd, hne, Bool.false_eq_true, if_false, natStr_val]

theorem parseStrBody_roundtrip (s : String) (hplain : s.data.all plainChar = true)
    (rest : List Char) :
    parseStrBody (s.data ++ '"' :: rest) = some (s, rest) := by
  have hnq : ∀ c ∈ s.data, (!(c == '"')) = true := by
    intro c hc
    have := List.all_eq_true.mp hplain c hc
    simp only [plainChar, Bool.and_eq_true] at this
    exact this.1.2
  obtain ⟨ht, hd⟩ := takeWhile_append_all (fun c => !(c == '"')) s.data ('"' :: rest)
    hnq (by simp)
  simp only [parseStrBody, ht, hd]

theorem escChar_plain (c : Char) (h : plainChar c = true) :
    escChar c = String.singleton c := by
  simp only [plainChar, Bool.and_eq_true, decide_eq_true_eq] at h
  obtain ⟨⟨⟨h32, h127⟩, hq⟩, hb⟩ := h
  have hq' : ¬ c = '"' := by
    intro hc
    rw [hc] at hq
    simp at hq
  have hb' : ¬ c = '\\' := by
    intro hc
    rw [hc] at hb
    simp at hb
  unfold escChar
  rw [if_neg hq', if_neg hb']
  rw [if_neg (by intro hc; rw [hc] at h32; exact (by decide : ¬ 32 ≤ (Char.ofNat 10).toNat) h32)]
  rw [if_neg (by intro hc; rw [hc] at h32; exact (by decide : ¬ 32 ≤ (Char.ofNat 13).toNat) h32)]
  rw [if_neg (by intro hc; rw [hc] at h32; exact (by decide : ¬ 32 ≤ (Char.ofNat 9).toNat) h32)]
  rw [if_neg (by intro hc; rw [hc] at h32; exact (by decide : ¬ 32 ≤ (Char.ofNat 8).toNat) h32)]
  rw [if_neg (by intro hc; rw [hc] at h32; exact (by decide : ¬ 32 ≤ (Char.ofNat 12).toNat) h32)]
  rw [if_neg (by omega)]
  rw [if_pos (by omega)]

theorem foldl_append_data (l : List String) (s : String) :
    (l.foldl (fun a b => a ++ b) s).data = s.data ++ (l.map String.data).flatten := by
  induction l generalizing s with
  | nil => simp
  | cons x xs ih =>
      simp only [List.foldl_cons, ih, List.map_cons, List.flatten_cons]
      rw [String.data_append]
      simp [List.append_assoc]

theorem join_data (l : List String) :
    (String.join l).data = (l.map String.data).flatten := by
  have := foldl_append_data l ""
  simpa [String.join] using this

theorem escString_plain (s : String) (h : s.data.all plainChar = true) :
    (escString s).data = s.data := by
  unfold escString
  rw [join_data]
  have : s.data.map escChar = s.data.map String.singleton := by
    apply List.map_congr_left
    intro c hc
    exact escChar_plain c (List.all_eq_true.mp h c hc)
  rw [this, List.map_map]
  generalize s.data = cs
  induction cs with
  | nil => rfl
  | cons c cs ih =>
      simp only [List.map_cons, List.flatten_cons, Function.comp_apply]
      rw [ih]
      rfl

theorem sizeVal_pos (v : PyVal) : 1 ≤ sizeVal v := by
  cases v <;> simp [sizeVal]

theorem serVal_str_data (s : String) :
    (serVal (.str s)).data = '"' :: ((escString s).data ++ ['"']) := by
  show (("\"" ++ escString s) ++ "\"").data = _
  rw [String.data_append, String.data_append]
  rfl

theorem serVal_list_data (l : List PyVal) :
    (serVal (.list l)).data = '[' :: ((joinSep ", " (serList l)).data ++ [']']) := by
  show (("[" ++ joinSep ", " (serList l)) ++ "]").data = _
  rw [String.data_append, String.data_append]
  rfl

theorem serVal_negSucc_data (m : Nat) :
    (serVal (.int (Int.negSucc m))).data = '-' :: (natStr (m + 1)).data := by
  show (("-" : String) ++ natStr (m + 1)).data = _
  rw [String.data_append]
  rfl

theorem joinSep_cons_cons_data (a : String) (b : String) (xs : List String) :
    (joinSep ", " (a :: b :: xs)).data =
      a.data ++ (',' :: ' ' :: (joinSep ", " (b :: xs)).data) := by
  show ((a ++ ", ") ++ joinSep ", " (b :: xs)).data = _
  rw [String.data_append, String.data_append]
  simp

theorem serVal_data_head (v : PyVal) :
    ∃ c cs, (serVal v).data = c :: cs ∧ ¬ c = ']' := by
  cases v with
  | none => exact ⟨'n', _, rfl, by decide⟩
  | bool b => cases b with
      | true => exact ⟨'t', _, rfl, by decide⟩
      | false => exact ⟨'f', _, rfl, by decide⟩
  | int n =>
      cases n with
      | ofNat m =>
          obtain ⟨c, cs, hdata⟩ : ∃ c cs, (natStr m).data = c :: cs := by
            cases h : (natStr m).data with
            | nil => exact absurd h (natStr_ne_nil m)
            | cons a as => exact ⟨a, as, rfl⟩
          have hcdig : c.isDigit = true :=
            natStr_all_digits m c (hdata ▸ List.mem_cons_self c cs)
          refine ⟨c, cs, hdata, ?_⟩
          intro hc
          rw [hc] at hcdig
          exact absurd hcdig (by decide)
      | negSucc m =>
          refine ⟨'-', (natStr (m + 1)).data, serVal_negSucc_data m, by decide⟩
  | str s => exact ⟨'"', _, serVal_str_data s, by decide⟩
  | list l =>
      cases l with
      | nil => exact ⟨'[', [']'], rfl, by decide⟩
      | cons v vs => exact ⟨'[', _, serVal_list_data (v :: vs), by decide⟩

theorem roundtrip_bundle (fuel : Nat) :
    (∀ (v : PyVal) (rest : List Char), plainVal v = true → sizeVal v ≤ fuel →
      (match rest with | [] => True | c :: _ => c.isDigit = false) →
      parseVal fuel ((serVal v).data ++ rest) = some (v, rest)) ∧
    (∀ (l : List PyVal) (rest : List Char), plainValList l = true → l ≠ [] →
      sizeList l ≤ fuel →
      parseElems fuel ((joinSep ", " (serList l)).data ++ (']' :: rest)) =
        some (l, rest)) := by
  induction fuel with
  | zero =>
      constructor
      · intro v _ _ hf _
        have := sizeVal_pos v
        omega
      · intro l _ _ hne hf
        cases l with
        | nil => exact absurd rfl hne
        | cons v vs =>
            have h1 := sizeVal_pos v
            simp only [sizeList] at hf
            omega
  | succ fuel ih =>
      obtain ⟨ihv, ihl⟩ := ih
      constructor
      · intro v rest hv hfuel hrest
        cases v with
        | none => rfl
        | bool b => cases b <;> rfl
        | int n =>
            cases n with
            | ofNat m =>
                obtain ⟨c, cs, hdata⟩ : ∃ c cs, (natStr m).data = c :: cs := by
                  cases h : (natStr m).data with
                  | nil => exact absurd h (natStr_ne_nil m)
                  | cons a as => exact ⟨a, as, rfl⟩
                have hcdig : c.isDigit = true :=
                  natStr_all_digits m c (hdata ▸ List.mem_cons_self c cs)
                have hsv : (serVal (.int (Int.ofNat m))).data = (natStr m).data := rfl
                rw [hsv, hdata, List.cons_append]
                simp only [parseVal]
                rw [if_pos hcdig, ← List.cons_append, ← hdata,
                  parseNat_roundtrip m rest hrest]
                rfl
            | negSucc m =>
                rw [serVal_negSucc_data, List.cons_append]
                simp only [parseVal]
                rw [if_neg (by decide), if_pos (by decide),
                  parseNat_roundtrip (m + 1) rest hrest]
                have hneg : Int.negSucc m = -((m + 1 : Nat) : Int) := by
                  rw [Int.negSucc_eq]
                  push_cast
                  ring
                rw [hneg]
                rfl
        | str s =>
            have hplain : s.data.all plainChar = true := by
              simpa [plainVal] using hv
            rw [serVal_str_data, escString_plain s hplain, List.cons_append,
              List.append_assoc]
            simp only [parseVal]
            rw [if_neg (by decide), if_neg (by decide), if_pos (by decide)]
            rw [show ['"'] ++ rest = '"' :: rest from rfl,
              parseStrBody_roundtrip s hplain rest]
            rfl
        | list l =>
            cases l with
            | nil => rfl
            | cons v vs =>
                obtain ⟨c, cs, hhead, hcne⟩ := serVal_data_head v
                have hjoin : ∃ X, (joinSep ", " (serList (v :: vs))).data = c :: X := by
                  cases vs with
                  | nil => exact ⟨cs, hhead⟩
                  | cons w ws =>
                      refine ⟨cs ++ (',' :: ' ' ::
                        (joinSep ", " (serList (w :: ws))).data), ?_⟩
                      have h1 : serList (v :: w :: ws) =
                          serVal v :: serVal w :: serList ws := rfl
                      have h2 : serList (w :: ws) = serVal w :: serList ws := rfl
                      rw [h1, joinSep_cons_cons_data, hhead, List.cons_append, h2]
                obtain ⟨X, hX⟩ := hjoin
                have hplainl : plainValList (v :: vs) = true := by
                  simpa [plainVal] using hv
                have hfl : sizeList (v :: vs) ≤ fuel := by
                  simp only [sizeVal] at hfuel
                  omega
                rw [serVal_list_data, List.cons_append, List.append_assoc]
                simp only [parseVal]
                rw [if_neg (by decide), if_neg (by decide), if_neg (by decide),
                  if_pos (by decide)]
                rw [show ([']'] : List Char) ++ rest = ']' :: rest from rfl]
                rw [hX, List.cons_append]
                have helems := ihl (v :: vs) rest hplainl (by simp) hfl
                rw [hX, List.cons_append] at helems
                split
                · rename_i rest2 heq
                  rw [List.cons_eq_cons] at heq
                  exact absurd heq.1 hcne
                · rw [helems]
                  rfl
      · intro l rest hpl hne hfuel
        cases l with
        | nil => exact absurd rfl hne
        | cons v vs =>
            have hv : plainVal v = true := by
              simp only [plainValList, Bool.and_eq_true] at hpl
              exact hpl.1
            have hvs : plainValList vs = true := by
              simp only [plainValList, Bool.and_eq_true] at hpl
              exact hpl.2
            have hsv : sizeVal v ≤ fuel := by
              simp only [sizeList] at hfuel
              omega
            cases vs with
            | nil =>
                have hval := ihv v (']' :: rest) hv hsv
                  (show Char.isDigit ']' = false by decide)
                show parseElems (fuel + 1) ((serVal v).data ++ (']' :: rest)) =
                  some ([v], rest)
                simp only [parseElems]
                rw [hval]
                rfl
            | cons w ws =>
                have hws : sizeList (w :: ws) ≤ fuel := by
                  have := sizeVal_pos v
                  simp only [sizeList] at hfuel ⊢
                  omega
                have h1 : serList (v :: w :: ws) =
                    serVal v :: serVal w :: serList ws := rfl
                have h2 : serVal w :: serList ws = serList (w :: ws) := rfl
                simp only [parseElems]
                rw [h1, joinSep_cons_cons_data, h2, List.append_assoc,
                  List.cons_append, List.cons_append]
                rw [ihv v (',' :: ' ' ::
                    ((joinSep ", " (serList (w :: ws))).data ++ (']' :: rest)))
                  hv hsv (show Char.isDigit ',' = false by decide)]
                have hrec := ihl (w :: ws) rest hvs (by simp) hws
                show (parseElems fuel
                    ((joinSep ", " (serList (w :: ws))).data ++
                      (']' :: rest))).map
                    (fun p => (v :: p.1, p.2)) = some (v :: w :: ws, rest)
                rw [hrec]
                rfl

theorem serVal_parse (v : PyVal) (rest : List Char) (hv : plainVal v = true)
    (fuel : Nat) (hf : sizeVal v ≤ fuel)
    (hrest : match rest with | [] => True | c :: _ => c.isDigit = false) :
    parseVal fuel ((serVal v).data ++ rest) = some (v, rest) :=
  (roundtrip_bundle fuel).1 v rest hv hf hrest

theorem serPair_data (k : String) (v : PyVal) :
    (serStr k ++ ": " ++ serVal v).data =
      '"' :: ((escString k).data ++ ('"' :: ':' :: ' ' :: (serVal v).data)) := by
  simp only [serStr]
  simp only [String.data_append]
  simp

theorem pairsJoin_decomp (p : String × PyVal) (ps : List (String × PyVal))
    (r : List Char) :
    (joinSep ", " ((p :: ps).map
        (fun kv => serStr kv.1 ++ ": " ++ serVal kv.2))).data ++ '}' :: r =
      (serStr p.1 ++ ": " ++ serVal p.2).data ++ pairsTail ps r := by
  cases ps with
  | nil => rfl
  | cons x xs =>
      rw [List.map_cons, List.map_cons, joinSep_cons_cons_data]
      simp only [pairsTail, List.map_cons, List.cons_append, List.append_assoc]

theorem pairsTail_cond (ps : List (String × PyVal)) (r : List Char) :
    (match pairsTail ps r with | [] => True | c :: _ => c.isDigit = false) := by
  cases ps with
  | nil =>
      show Char.isDigit '}' = false
      decide
  | cons x xs =>
      show Char.isDigit ',' = false
      decide

theorem pairsJoin_head (q : String × PyVal) (qs : List (String × PyVal)) :
    ∃ X, (joinSep ", " ((q :: qs).map
      (fun kv => serStr kv.1 ++ ": " ++ serVal kv.2))).data = '"' :: X := by
  cases qs with
  | nil => exact ⟨_, serPair_data q.1 q.2⟩
  | cons w ws =>
      rw [List.map_cons, List.map_cons, joinSep_cons_cons_data]
      rw [serPair_data, List.cons_append]
      exact ⟨_, rfl⟩

theorem serPairs_inj (s1 : List (String × PyVal)) :
    ∀ (s2 : List (String × PyVal)) (r1 r2 : List Char),
    (∀ p ∈ s1, p.1.data.all plainChar = true ∧ plainVal p.2 = true) →
    (∀ p ∈ s2, p.1.data.all plainChar = true ∧ plainVal p.2 = true) →
    (joinSep ", " (s1.map (fun kv => serStr kv.1 ++ ": " ++ serVal kv.2))).data
        ++ '}' :: r1 =
      (joinSep ", " (s2.map (fun kv => serStr kv.1 ++ ": " ++ serVal kv.2))).data
        ++ '}' :: r2 →
    s1 = s2 ∧ r1 = r2 := by
  induction s1 with
  | nil =>
      intro s2 r1 r2 _ h2 heq
      cases s2 with
      | nil =>
          have heq' : ('}' :: r1 : List Char) = '}' :: r2 := heq
          injection heq' with hc hr
          exact ⟨rfl, hr⟩
      | cons q qs =>
          obtain ⟨X, hX⟩ := pairsJoin_head q qs
          rw [hX] at heq
          have heq' : ('}' :: r1 : List Char) = '"' :: (X ++ '}' :: r2) := by
            rw [← List.cons_append]
            exact heq
          injection heq' with hc hr
          exact absurd hc (by decide)
  | cons p ps ih =>
      intro s2 r1 r2 h1 h2 heq
      cases s2 with
      | nil =>
          obtain ⟨X, hX⟩ := pairsJoin_head p ps
          rw [hX] at heq
          have heq' : ('"' :: (X ++ '}' :: r1) : List Char) = '}' :: r2 := by
            rw [← List.cons_append]
            exact heq
          injection heq' with hc hr
          exact absurd hc (by decide)
      | cons q qs =>
          rw [pairsJoin_decomp p ps r1, pairsJoin_decomp q qs r2] at heq
          obtain ⟨hkp, hvp⟩ := h1 p (List.mem_cons_self p ps)
          obtain ⟨hkq, hvq⟩ := h2 q (List.mem_cons_self q qs)
          rw [serPair_data p.1 p.2, serPair_data q.1 q.2,
            escString_plain p.1 hkp, escString_plain q.1 hkq,
            List.cons_append, List.cons_append] at heq
          injection heq with hq heq2
          simp only [List.append_assoc, List.cons_append] at heq2
          have hb1 := parseStrBody_roundtrip p.1 hkp
            (':' :: ' ' :: ((serVal p.2).data ++ pairsTail ps r1))
          have hb2 := parseStrBody_roundtrip q.1 hkq
            (':' :: ' ' :: ((serVal q.2).data ++ pairsTail qs r2))
          rw [heq2, hb2] at hb1
          have hkey : q.1 = p.1 ∧
              (serVal q.2).data ++ pairsTail qs r2 =
                (serVal p.2).data ++ pairsTail ps r1 := by
            simpa using hb1
          have hv1 := serVal_parse p.2 (pairsTail ps r1) hvp
            (sizeVal p.2 + sizeVal q.2) (by omega) (pairsTail_cond ps r1)
          have hv2 := serVal_parse q.2 (pairsTail qs r2) hvq
            (sizeVal p.2 + sizeVal q.2) (by omega) (pairsTail_cond qs r2)
          rw [hkey.2, hv1] at hv2
          have hval : p.2 = q.2 ∧ pairsTail ps r1 = pairsTail qs r2 := by
            simpa using hv2
          have hpq : p = q := by
            rw [Prod.ext_iff]
            exact ⟨hkey.1.symm, hval.1⟩
          have hT := hval.2
          cases ps with
          | nil =>
              cases qs with
              | nil =>
                  have hT' : ('}' :: r1 : List Char) = '}' :: r2 := hT
                  injection hT' with hc hr
                  exact ⟨by rw [hpq], hr⟩
              | cons w ws =>
                  have hT' : ('}' :: r1 : List Char) = ',' :: ' ' ::
                      ((joinSep ", " ((w :: ws).map
                        (fun kv => serStr kv.1 ++ ": " ++ serVal kv.2))).data ++
                        '}' :: r2) := hT
                  injection hT' with hc hr
                  exact absurd hc (by decide)
          | cons x xs =>
              cases qs with
              | nil =>
                  have hT' : (',' :: ' ' ::
                      ((joinSep ", " ((x :: xs).map
                        (fun kv => serStr kv.1 ++ ": " ++ serVal kv.2))).data ++
                        '}' :: r1) : List Char) = '}' :: r2 := hT
                  injection hT' with hc hr
                  exact absurd hc (by decide)
              | cons w ws =>
                  have hT' : (',' :: ' ' ::
                      ((joinSep ", " ((x :: xs).map
                        (fun kv => serStr kv.1 ++ ": " ++ serVal kv.2))).data ++
                        '}' :: r1) : List Char) = ',' :: ' ' ::
                      ((joinSep ", " ((w :: ws).map
                        (fun kv => serStr kv.1 ++ ": " ++ serVal kv.2))).data ++
                        '}' :: r2) := hT
                  injection hT' with hc1 hT2
                  injection hT2 with hc2 hJ
                  obtain ⟨hps, hr⟩ := ih (w :: ws) r1 r2
                    (fun a ha => h1 a (List.mem_cons_of_mem _ ha))
                    (fun a ha => h2 a (List.mem_cons_of_mem _ ha)) hJ
                  exact ⟨by rw [hpq, hps], hr⟩

theorem serParams_inj (ps1 ps2 : List (String × PyVal))
    (h1 : ∀ p ∈ ps1, p.1.data.all plainChar = true ∧ plainVal p.2 = true)
    (h2 : ∀ p ∈ ps2, p.1.data.all plainChar = true ∧ plainVal p.2 = true)
    (heq : serParams ps1 = serParams ps2) :
    sortParams ps1 = sortParams ps2 := by
  have hd := congrArg String.data heq
  simp only [serParams] at hd
  simp only [String.data_append] at hd
  simp only [List.cons_append, List.nil_append, List.append_assoc] at hd
  injection hd with hc hJ
  obtain ⟨hs, _⟩ := serPairs_inj (sortParams ps1) (sortParams ps2) [] []
    (fun a ha => h1 a ((sortBy_perm _ ps1).mem_iff.mp ha))
    (fun a ha => h2 a ((sortBy_perm _ ps2).mem_iff.mp ha)) hJ
  exact hs

theorem combinedKey_inj (m : String) (ps1 ps2 : List (String × PyVal))
    (h1 : ∀ p ∈ ps1, p.1.data.all plainChar = true ∧ plainVal p.2 = true)
    (h2 : ∀ p ∈ ps2, p.1.data.all plainChar = true ∧ plainVal p.2 = true)
    (heq : combinedKey m ps1 = combinedKey m ps2) :
    sortParams ps1 = sortParams ps2 := by
  apply serParams_inj ps1 ps2 h1 h2
  have hd := congrArg String.data heq
  simp only [combinedKey] at hd
  simp only [String.data_append] at hd
  exact String.ext (List.append_cancel_left hd)

/-- C3 (amended): fingerprint determinism holds — reordering a kwargs dict
(a permutation of an association list with distinct keys) never changes the
generated cache key; and the distinctness half holds at the level of the
hash pre-image: for parameter mappings over escape-free values, changing a
single value, or renaming a single key, changes the combined serialised
string that is hashed (the final 16-hex-character truncated digest itself
can collide, so distinctness of the full generated key is only
cryptographic, not absolute). -/
theorem C3_determinism_and_preimage_distinctness :
    (∀ (m : String) (p1 p2 : Params), List.Perm p1 p2 →
        List.Nodup (List.map Prod.fst p1) →
        generate_key m p1 = generate_key m p2) ∧
    (∀ (m k : String) (pre post : List (String × PyVal)) (v1 v2 : PyVal),
        (∀ p ∈ pre ++ (k, v1) :: post,
          p.1.data.all plainChar = true ∧ plainVal p.2 = true) →
        plainVal v2 = true →
        k ∉ (pre ++ post).map Prod.fst → v1 ≠ v2 →
        combinedKey m (pre ++ (k, v1) :: post) ≠
          combinedKey m (pre ++ (k, v2) :: post)) ∧
    (∀ (m k1 k2 : String) (pre post : List (String × PyVal)) (v : PyVal),
        (∀ p ∈ pre ++ (k1, v) :: post,
          p.1.data.all plainChar = true ∧ plainVal p.2 = true) →
        k2.data.all plainChar = true →
        k1 ∉ (pre ++ post).map Prod.fst → k1 ≠ k2 →
        combinedKey m (pre ++ (k1, v) :: post) ≠
          combinedKey m (pre ++ (k2, v) :: post)) := by
  refine ⟨fun m p1 p2 hperm hnd => generate_key_eq_of_perm m p1 p2 hperm hnd,
    ?_, ?_⟩
  · intro m k pre post v1 v2 hplain hv2 hk hne heq
    have h2' : ∀ p ∈ pre ++ (k, v2) :: post,
        p.1.data.all plainChar = true ∧ plainVal p.2 = true := by
      intro a ha
      rcases List.mem_append.mp ha with h | h
      · exact hplain a (List.mem_append.mpr (Or.inl h))
      · rcases List.mem_cons.mp h with rfl | h
        · exact ⟨(hplain (k, v1) (List.mem_append.mpr
            (Or.inr (List.mem_cons_self _ _)))).1, hv2⟩
        · exact hplain a (List.mem_append.mpr (Or.inr (List.mem_cons_of_mem _ h)))
    have hsort := combinedKey_inj m _ _ hplain h2' heq
    have hmem1 : (k, v1) ∈ sortParams (pre ++ (k, v1) :: post) :=
      (sortBy_perm _ _).mem_iff.mpr
        (List.mem_append.mpr (Or.inr (List.mem_cons_self _ _)))
    rw [hsort] at hmem1
    have hmem2 : (k, v1) ∈ pre ++ (k, v2) :: post :=
      (sortBy_perm _ _).mem_iff.mp hmem1
    rcases List.mem_append.mp hmem2 with h | h
    · exact hk (List.mem_map.mpr ⟨(k, v1), List.mem_append.mpr (Or.inl h), rfl⟩)
    · rcases List.mem_cons.mp h with hh | hh
      · exact hne (congrArg Prod.snd hh)
      · exact hk (List.mem_map.mpr ⟨(k, v1),
          List.mem_append.mpr (Or.inr hh), rfl⟩)
  · intro m k1 k2 pre post v hplain hk2 hk hne heq
    have h2' : ∀ p ∈ pre ++ (k2, v) :: post,
        p.1.data.all plainChar = true ∧ plainVal p.2 = true := by
      intro a ha
      rcases List.mem_append.mp ha with h | h
      · exact hplain a (List.mem_append.mpr (Or.inl h))
      · rcases List.mem_cons.mp h with rfl | h
        · exact ⟨hk2, (hplain (k1, v) (List.mem_append.mpr
            (Or.inr (List.mem_cons_self _ _)))).2⟩
        · exact hplain a (List.mem_append.mpr (Or.inr (List.mem_cons_of_mem _ h)))
    have hsort := combinedKey_inj m _ _ hplain h2' heq
    have hmem1 : (k1, v) ∈ sortParams (pre ++ (k1, v) :: post) :=
      (sortBy_perm _ _).mem_iff.mpr
        (List.mem_append.mpr (Or.inr (List.mem_cons_self _ _)))
    rw [hsort] at hmem1
    have hmem2 : (k1, v) ∈ pre ++ (k2, v) :: post :=
      (sortBy_perm _ _).mem_iff.mp hmem1
    rcases List.mem_append.mp hmem2 with h | h
    · exact hk (List.mem_map.mpr ⟨(k1, v), List.mem_append.mpr (Or.inl h), rfl⟩)
    · rcases List.mem_cons.mp h with hh | hh
      · exact hne (congrArg Prod.fst hh)
      · exact hk (List.mem_map.mpr ⟨(k1, v),
          List.mem_append.mpr (Or.inr hh), rfl⟩)

/-- Concrete instance of the amended C3: a two-entry mapping fingerprints
identically in either order, and changing the one value (or the one key) of
a singleton mapping changes the hash pre-image. -/
theorem C3_determinism_and_preimage_distinctness_witness :
    generate_key "metric" [("a", PyVal.int 1), ("b", PyVal.int 2)] =
      generate_key "metric" [("b", PyVal.int 2), ("a", PyVal.int 1)] ∧
    combinedKey "metric" [("season", PyVal.int 2019)] ≠
      combinedKey "metric" [("season", PyVal.int 2020)] ∧
    combinedKey "metric" [("season", PyVal.int 2019)] ≠
      combinedKey "metric" [("year", PyVal.int 2019)] := by
  refine ⟨C3_determinism_and_preimage_distinctness.1 "metric" _ _
      (List.Perm.swap _ _ _) (by decide),
    C3_determinism_and_preimage_distinctness.2.1 "metric" "season" [] []
      (PyVal.int 2019) (PyVal.int 2020) ?_ rfl (by simp) ?_,
    C3_determinism_and_preimage_distinctness.2.2 "metric" "season" "year" [] []
      (PyVal.int 2019) ?_ (by decide) (by simp) ?_⟩
  · intro p hp
    rcases List.mem_cons.mp hp with rfl | hp
    · exact ⟨by decide, rfl⟩
    · exact absurd hp (List.not_mem_nil p)
  · intro h
    injection h with h'
    exact absurd h' (by decide)
  · intro p hp
    rcases List.mem_cons.mp hp with rfl | hp
    · exact ⟨by decide, rfl⟩
    · exact absurd hp (List.not_mem_nil p)
  · intro h
    rw [String.ext_iff] at h
    exact absurd h (by decide)

set_option maxRecDepth 8000 in
/-- C3 is refuted as stated for the generated keys themselves: the two
singleton parameter mappings assigning season the distinct values
17444602758384787657 and 6609535503298396645 differ in a single value,
yet generate the same 16-hex-character cache key, because _generate_key
keeps only the first 16 characters of the SHA-256 hex digest; the full
digests of the two pre-images differ. -/
theorem C3_counterexample_truncated_key_collision :
    generate_key "m" [("season", PyVal.int 17444602758384787657)] =
      generate_key "m" [("season", PyVal.int 6609535503298396645)] ∧
    sha256hex (combinedKey "m" [("season", PyVal.int 17444602758384787657)]) ≠
      sha256hex (combinedKey "m" [("season", PyVal.int 6609535503298396645)]) ∧
    PyVal.int 17444602758384787657 ≠ PyVal.int 6609535503298396645 := by
  refine ⟨by rfl, by decide, ?_⟩
  intro h
  injection h with h'
  exact absurd h' (by decide)

end F1Metrics
